import Mathlib

set_option maxRecDepth 100000

/-!
Shallow embedding of the GovStack digital-registries GraphQL utility module
(registry_qgl_utils.py): data mapper, payload builders, response decoder and
mutation correlator, together with proofs of the specification claims.
Python dictionaries are modelled as insertion-ordered association lists,
Python exceptions as the `Except` monad, and collaborators (the GraphQL
execution client and the mutation-log store) as explicit parameters.
-/

/-- A Python runtime value, restricted to the JSON-compatible shapes the
module manipulates: None, bool, int, str, list and dict. -/
inductive PyValue where
  | none
  | bool (b : Bool)
  | int (n : Int)
  | str (s : String)
  | list (xs : List PyValue)
  | dict (d : List (String × PyValue))

/-- A Python dict with string keys, as an insertion-ordered association list. -/
abbrev PyDict := List (String × PyValue)

/-- Python `d.get(k)`: first value stored under `k`, if any. -/
def dictGet {α : Type} (d : List (String × α)) (k : String) : Option α :=
  (d.find? (fun p => p.1 == k)).map Prod.snd

/-- Python `d[k] = v`: overwrite in place (keeping the key position) or append. -/
def dictInsert {α : Type} (d : List (String × α)) (k : String) (v : α) :
    List (String × α) :=
  if d.any (fun p => p.1 == k) then
    d.map (fun p => if p.1 == k then (k, v) else p)
  else
    d ++ [(k, v)]

/-- Python `d.pop(k, None)`: the dict with key `k` removed. -/
def dictPop {α : Type} (d : List (String × α)) (k : String) : List (String × α) :=
  d.filter (fun p => !(p.1 == k))

/-- The keys of a dict, in insertion order. -/
def dictKeys {α : Type} (d : List (String × α)) : List String :=
  d.map Prod.fst

/-- Python `d.update(e)`: insert every entry of `e` into `d` in order. -/
def dictUpdate {α : Type} (d e : List (String × α)) : List (String × α) :=
  e.foldl (fun acc p => dictInsert acc p.1 p.2) d

/-- Python truthiness of a value (`if value:`). -/
def pyTruthy : PyValue → Bool
  | PyValue.none => false
  | PyValue.bool b => b
  | PyValue.int n => n != 0
  | PyValue.str s => !s.isEmpty
  | PyValue.list xs => !xs.isEmpty
  | PyValue.dict d => !d.isEmpty

/-- Python truthiness of an optional integer argument (None and 0 are falsy). -/
def pyTruthyOptNat : Option Nat → Bool
  | Option.none => false
  | Option.some n => n != 0

/-- Python truthiness of an optional string argument (None and "" are falsy). -/
def pyTruthyOptStr : Option String → Bool
  | Option.none => false
  | Option.some s => !s.isEmpty

/-- The single-quote character, used by Python container repr. -/
def sqChar : Char := Char.ofNat 39

/-- Lowercase hexadecimal digit. -/
def hexDigitChar (n : Nat) : Char :=
  if n < 10 then Char.ofNat (48 + n) else Char.ofNat (87 + n)

/-- A JSON `\uXXXX` escape for a code unit. -/
def uEscape (n : Nat) : String :=
  String.mk ['\\', 'u', hexDigitChar (n / 4096 % 16), hexDigitChar (n / 256 % 16),
    hexDigitChar (n / 16 % 16), hexDigitChar (n % 16)]

/-- Escaping of one character inside a JSON string literal, following
`json.dumps` with its default `ensure_ascii=True`. -/
def jsonEscapeChar (c : Char) : String :=
  if c = '\\' then "\\\\"
  else if c = Char.ofNat 34 then String.mk ['\\', Char.ofNat 34]
  else if c = '\n' then "\\n"
  else if c = '\t' then "\\t"
  else if c = '\r' then "\\r"
  else if c.toNat = 8 then "\\b"
  else if c.toNat = 12 then "\\f"
  else if c.toNat < 32 then uEscape c.toNat
  else if c.toNat < 127 then String.singleton c
  else if c.toNat < 65536 then uEscape c.toNat
  else
    let n := c.toNat - 65536
    uEscape (55296 + n / 1024) ++ uEscape (56320 + n % 1024)

/-- A JSON string literal for `s`. -/
def jsonQuote (s : String) : String :=
  String.mk [Char.ofNat 34] ++ String.join (s.data.map jsonEscapeChar)
    ++ String.mk [Char.ofNat 34]

mutual

/-- Python `json.dumps` on a value, with the default separators. -/
def jsonDumps : PyValue → String
  | PyValue.none => "null"
  | PyValue.bool b => if b then "true" else "false"
  | PyValue.int n => toString n
  | PyValue.str s => jsonQuote s
  | PyValue.list xs => "[" ++ jsonDumpsList xs ++ "]"
  | PyValue.dict d => "\x7b" ++ jsonDumpsMembers d ++ "\x7d"

/-- Comma-separated JSON renderings of the elements of a list. -/
def jsonDumpsList : List PyValue → String
  | [] => ""
  | [x] => jsonDumps x
  | x :: y :: xs => jsonDumps x ++ ", " ++ jsonDumpsList (y :: xs)

/-- Comma-separated JSON renderings of the members of an object. -/
def jsonDumpsMembers : List (String × PyValue) → String
  | [] => ""
  | [p] => jsonQuote p.1 ++ ": " ++ jsonDumps p.2
  | p :: q :: ps => jsonQuote p.1 ++ ": " ++ jsonDumps p.2 ++ ", " ++ jsonDumpsMembers (q :: ps)

end

/-- Python `str()` of a value. Containers are rendered with single-quoted
strings in the style of Python repr; every claim exercises scalars only. -/
def pyStr : PyValue → String
  | PyValue.none => "None"
  | PyValue.bool b => if b then "True" else "False"
  | PyValue.int n => toString n
  | PyValue.str s => s
  | PyValue.list xs => "[" ++ String.intercalate ", "
      (xs.map (fun v => match v with
        | PyValue.str s => String.singleton sqChar ++ s ++ String.singleton sqChar
        | w => jsonDumps w)) ++ "]"
  | PyValue.dict _ => "\x7bdict\x7d"

/-- Python `s.isdigit()` restricted to the ASCII digits the module meets. -/
def pyIsdigit (s : String) : Bool :=
  !s.isEmpty && s.data.all Char.isDigit

/-- Python `int(s)` on a digit string. -/
def digitsToNat (s : String) : Nat :=
  s.data.foldl (fun a c => a * 10 + (c.toNat - 48)) 0

/-! ## Identifier codec: UTF-8 and base64, as used by encode_id / decode_id -/

/-- UTF-8 encoding of one code point, as Python `str.encode()` produces. -/
def utf8EncodeChar (c : Char) : List Nat :=
  let n := c.toNat
  if n < 128 then [n]
  else if n < 2048 then [192 + n / 64, 128 + n % 64]
  else if n < 65536 then [224 + n / 4096, 128 + n / 64 % 64, 128 + n % 64]
  else [240 + n / 262144, 128 + n / 4096 % 64, 128 + n / 64 % 64, 128 + n % 64]

/-- UTF-8 byte sequence of a string, as Python `s.encode()`. -/
def pyStrEncode (s : String) : List Nat :=
  s.data.flatMap utf8EncodeChar

/-- UTF-8 decoding of a byte sequence, as Python `bytes.decode()`; `none`
models UnicodeDecodeError. -/
def utf8DecodeAux : List Nat → Option (List Char)
  | [] => Option.some []
  | b1 :: rest =>
    if b1 < 128 then (utf8DecodeAux rest).map (fun cs => Char.ofNat b1 :: cs)
    else if b1 < 192 then Option.none
    else if b1 < 224 then
      match rest with
      | b2 :: rest2 =>
        if 128 ≤ b2 ∧ b2 < 192 then
          (utf8DecodeAux rest2).map (fun cs => Char.ofNat ((b1 - 192) * 64 + (b2 - 128)) :: cs)
        else Option.none
      | [] => Option.none
    else if b1 < 240 then
      match rest with
      | b2 :: b3 :: rest3 =>
        if (128 ≤ b2 ∧ b2 < 192) ∧ (128 ≤ b3 ∧ b3 < 192) then
          (utf8DecodeAux rest3).map
            (fun cs => Char.ofNat ((b1 - 224) * 4096 + (b2 - 128) * 64 + (b3 - 128)) :: cs)
        else Option.none
      | _ => Option.none
    else if b1 < 248 then
      match rest with
      | b2 :: b3 :: b4 :: rest4 =>
        if (128 ≤ b2 ∧ b2 < 192) ∧ (128 ≤ b3 ∧ b3 < 192) ∧ (128 ≤ b4 ∧ b4 < 192) then
          (utf8DecodeAux rest4).map
            (fun cs => Char.ofNat ((b1 - 240) * 262144 + (b2 - 128) * 4096
              + (b3 - 128) * 64 + (b4 - 128)) :: cs)
        else Option.none
      | _ => Option.none
    else Option.none

/-- The standard base64 alphabet, position by position. -/
def b64alphabetChars : List Char :=
  "ABCDEFGHIJKLMNOPQRSTUVWXYZabcdefghijklmnopqrstuvwxyz0123456789+/".data

/-- The base64 digit for a six-bit value. -/
def b64alphabet (n : Nat) : Char :=
  b64alphabetChars.getD n (Char.ofNat 65)

/-- The six-bit value of a base64 digit, if it is one. -/
def b64val (c : Char) : Option Nat :=
  b64alphabetChars.indexOf? c

/-- Standard base64 encoding of a byte list (`base64.b64encode`). -/
def b64encodeChars : List Nat → List Char
  | [] => []
  | [a] => [b64alphabet (a / 4), b64alphabet (a % 4 * 16), '=', '=']
  | [a, b] => [b64alphabet (a / 4), b64alphabet (a % 4 * 16 + b / 16),
      b64alphabet (b % 16 * 4), '=']
  | a :: b :: c :: rest =>
      b64alphabet (a / 4) :: b64alphabet (a % 4 * 16 + b / 16)
        :: b64alphabet (b % 16 * 4 + c / 64) :: b64alphabet (c % 64)
        :: b64encodeChars rest

/-- Standard base64 decoding of a character list (`base64.b64decode`); `none`
models binascii.Error on malformed input. -/
def b64decodeAux : List Nat → Option (List Nat)
  | [] => Option.some []
  | n1 :: n2 :: n3 :: n4 :: rest =>
    if n3 = 9999 ∧ n4 = 9999 ∧ rest = [] then
      Option.some [n1 * 4 + n2 / 16]
    else if n4 = 9999 ∧ rest = [] then
      Option.some [n1 * 4 + n2 / 16, n2 % 16 * 16 + n3 / 4]
    else
      (b64decodeAux rest).map (fun tl =>
        (n1 * 4 + n2 / 16) :: (n2 % 16 * 16 + n3 / 4) :: ((n3 % 4 * 64 + n4) :: tl))
  | _ => Option.none

/-- Reads one base64 symbol: a digit value, or the marker 9999 for padding. -/
def b64symbol (c : Char) : Option Nat :=
  if c = '=' then Option.some 9999 else b64val c

/-- `base64.b64decode` on a string: map symbols, then decode four at a time. -/
def b64decodeString (s : String) : Option (List Nat) := do
  let syms ← s.data.mapM b64symbol
  b64decodeAux syms

/-- Splits a character list on the colon character, as Python `s.split(":")`. -/
def splitOnColon : List Char → List (List Char)
  | [] => [[]]
  | c :: rest =>
    if c = ':' then [] :: splitOnColon rest
    else
      match splitOnColon rest with
      | [] => [[c]]
      | h :: t => (c :: h) :: t

/-! ## Exceptions and the error taxonomy of the module -/

/-- The payload of a raised `MutationError`. The source formats the
unsupported-field case into a message string naming the offending field and
listing `fields_mapping.keys()` and `special_fields`; the structure below
carries those same data. -/
inductive MutationErrorDetail where
  | unsupportedField (field : String) (allowedMapped : List String)
      (allowedSpecial : List String)
  | fromEnvelope (errors : PyValue)
  | missingClientMutationId
  | fromLog (detail : String)

/-- Python exceptions the module can raise. -/
inductive PyExc where
  | mutationError (detail : MutationErrorDetail)
  | attributeError
  | typeError
  | valueError

/-! ## DataConverterUtils.encode_id / decode_id -/

/-- `DataConverterUtils.encode_id`: when the dict carries an `id` key,
replace its value by the base64 encoding of its string form. -/
def encode_id (mapped_data : PyDict) : PyDict :=
  match dictGet mapped_data "id" with
  | Option.some idValue =>
      dictInsert mapped_data "id"
        (PyValue.str (String.mk (b64encodeChars (pyStrEncode (pyStr idValue)))))
  | Option.none => mapped_data

/-- `DataConverterUtils.decode_id`: base64-decode, UTF-8 decode, then unpack
`_, id_value = decoded_string.split(":")` — which requires exactly one colon
(any other count raises ValueError) and returns the part after it. -/
def decode_id (encoded_id : String) : Except PyExc String :=
  match b64decodeString encoded_id with
  | Option.none => Except.error PyExc.valueError
  | Option.some bytes =>
    match utf8DecodeAux bytes with
    | Option.none => Except.error PyExc.valueError
    | Option.some cs =>
      match splitOnColon cs with
      | [_, idv] => Except.ok (String.mk idv)
      | _ => Except.error PyExc.valueError

/-! ## DataMapper -/

/-- The configuration of a `DataMapper`: the external-to-internal field
mapping, the special fields stored in the extension blob, the meta fields
passed through unchanged (`['uuid', 'uuids']` by default), and the
pre-rendered default argument fragments. -/
structure DataMapperCfg where
  fields_mapping : List (String × String)
  special_fields : List String
  meta_fields : List String := ["uuid", "uuids"]
  default_values : List (String × String) := []

/-- Key lookup in the fields mapping. -/
def fmLookup (fm : List (String × String)) (f : String) : Option String :=
  (fm.find? (fun p => p.1 == f)).map Prod.snd

/-- The loop body of `map_to_graphql`, threading the `mapped_data` and
`json_ext` accumulator dicts over the input items. -/
def mapFields (cfg : DataMapperCfg) :
    List (String × PyValue) → PyDict → PyDict →
    Except PyExc (PyDict × PyDict)
  | [], mapped, jext => Except.ok (mapped, jext)
  | (f, v) :: rest, mapped, jext =>
    match fmLookup cfg.fields_mapping f with
    | Option.some g => mapFields cfg rest (dictInsert mapped g v) jext
    | Option.none =>
      if f ∈ cfg.special_fields then
        mapFields cfg rest mapped (dictInsert jext f v)
      else if f ∈ cfg.meta_fields then
        mapFields cfg rest (dictInsert mapped f v) jext
      else
        Except.error (PyExc.mutationError (MutationErrorDetail.unsupportedField f
          (cfg.fields_mapping.map Prod.fst) cfg.special_fields))

/-- `DataMapper.map_to_graphql`: route every input field to its mapped name,
the json-ext accumulator, or the pass-through meta set; raise MutationError on
any other field; finally serialize a non-empty json-ext into `jsonExt`. -/
def map_to_graphql (cfg : DataMapperCfg) (validated_data : List (String × PyValue)) :
    Except PyExc PyDict := do
  let (mapped, jext) ← mapFields cfg validated_data [] []
  if jext.isEmpty then
    return mapped
  else
    return dictInsert mapped "jsonExt" (PyValue.str (jsonDumps (PyValue.dict jext)))

/-- The reversed fields mapping `{v: k for k, v in fields_mapping.items()}`:
built by dict insertion, so a duplicated value keeps the last key. -/
def reversedFieldsMapping (fm : List (String × String)) : List (String × String) :=
  fm.foldl (fun acc p => dictInsert acc p.2 p.1) []

/-- The per-record loop body of `map_to_registry`. -/
def mapToRegistryRecord (cfg : DataMapperCfg) (next_record : PyDict) : PyDict :=
  let reversed := reversedFieldsMapping cfg.fields_mapping
  next_record.foldl (fun mapped_entry p =>
    if p.1 ∈ cfg.meta_fields then mapped_entry
    else
      let m1 := match dictGet reversed p.1 with
        | Option.some orig => dictInsert mapped_entry orig p.2
        | Option.none => mapped_entry
      if p.1 ∈ cfg.special_fields then dictInsert m1 p.1 p.2 else m1) []

/-- `DataMapper.map_to_registry`: reverse-map each record, skipping meta
fields, translating internal names back through the reversed mapping, and
copying special fields verbatim. -/
def map_to_registry (cfg : DataMapperCfg) (graphql_data : List PyDict) : List PyDict :=
  graphql_data.map (mapToRegistryRecord cfg)

/-! ## GQLPayloadBuilder: argument serialization and query documents -/

/-- Python `value.replace('"', '\\"')`: escape every double quote with a
backslash, character by character (the pattern is a single character). -/
def escapeQuotes : List Char → List Char
  | [] => []
  | c :: rest =>
    if c = Char.ofNat 34 then '\\' :: Char.ofNat 34 :: escapeQuotes rest
    else c :: escapeQuotes rest

/-- Serialization of one `field: value` argument pair
(`GQLPayloadBuilder.create_arguments_with_values` loop body). A non-string
value under `id` raises AttributeError, since the source calls
`value.isdigit()` on it. -/
def format_argument (field : String) (value : PyValue) : Except PyExc String :=
  if field = "jsonExt" ∧ (match value with | PyValue.str _ => true | _ => false) = true then
    Except.ok (field ++ ": " ++ String.mk [Char.ofNat 34]
      ++ String.mk (escapeQuotes (pyStr value).data)
      ++ String.mk [Char.ofNat 34])
  else if field = "id" then
    match value with
    | PyValue.str s =>
      if pyIsdigit s then Except.ok (field ++ ": " ++ toString (digitsToNat s))
      else Except.ok (field ++ ": " ++ String.mk [Char.ofNat 34] ++ s ++ String.mk [Char.ofNat 34])
    | _ => Except.error PyExc.attributeError
  else
    match value with
    | PyValue.list xs => Except.ok (field ++ ": " ++ jsonDumps (PyValue.list xs))
    | v => Except.ok (field ++ ": " ++ String.mk [Char.ofNat 34] ++ pyStr v
        ++ String.mk [Char.ofNat 34])

/-- `GQLPayloadBuilder.create_arguments_with_values`: serialize every pair and
join with `", "`. -/
def create_arguments_with_values (mapped_data : PyDict) : Except PyExc String := do
  let arguments ← mapped_data.mapM (fun p => format_argument p.1 p.2)
  return String.intercalate ", " arguments

/-- `GQLPayloadTemplate.get_single_model_query`: the exact connection-query
document text, braces and indentation included. -/
def get_single_model_query (query_name : String) (arguments_with_variables : String)
    (fetched_fields : String) : String :=
  "\n                query \x7b\n                    "
    ++ query_name ++ "(" ++ arguments_with_variables ++ ") \x7b\n"
    ++ "                    totalCount\n"
    ++ "                    pageInfo \x7b hasNextPage, endCursor \x7d\n"
    ++ "                        edges\x7b\n"
    ++ "                            cursor\n"
    ++ "                            node\x7b\n"
    ++ "                                " ++ fetched_fields ++ "\n"
    ++ "                            \x7d\n"
    ++ "                        \x7d\n"
    ++ "                    \x7d\n"
    ++ "                \x7d\n"
    ++ "                "

/-- `GQLPayloadBuilder.__init__` rebuilds its own `DataMapper` from the
mapping, special fields and defaults only, so the builder's mapper always
carries the default meta fields `['uuid', 'uuids']`. -/
def builderCfg (cfg : DataMapperCfg) : DataMapperCfg :=
  { fields_mapping := cfg.fields_mapping, special_fields := cfg.special_fields,
    meta_fields := ["uuid", "uuids"], default_values := cfg.default_values }

/-- `GQLPayloadBuilder.build_list_query`: map the data, project all mapped
fields plus `jsonExt`, strip `jsonExt` from the arguments, then append
`first`, `offset` and `orderBy` arguments under Python truthiness tests.
`page * page_size` with `page_size = None` raises TypeError. -/
def build_list_query (cfg : DataMapperCfg) (query_name : String)
    (data : List (String × PyValue)) (ordering : Option String)
    (page page_size : Option Nat) : Except PyExc String := do
  let mapped0 ← map_to_graphql (builderCfg cfg) data
  let fetched_fields :=
    String.intercalate " " (cfg.fields_mapping.map Prod.snd) ++ " jsonExt"
  let mapped_data := dictPop mapped0 "jsonExt"
  let args0 ← create_arguments_with_values mapped_data
  let args1 := if pyTruthyOptNat page_size then
      args0 ++ " first:" ++ toString (page_size.getD 0)
    else args0
  let args2 ← if pyTruthyOptNat page then
      match page_size with
      | Option.some ps => Except.ok (args1 ++ " offset: " ++ toString (page.getD 0 * ps))
      | Option.none => Except.error PyExc.typeError
    else Except.ok args1
  let args3 := if pyTruthyOptStr ordering ∧ ¬ mapped_data.isEmpty then
      let sort_field := (dictKeys mapped_data).headD ""
      let order_arg := if ordering = Option.some "descending" then
          String.mk [Char.ofNat 34, Char.ofNat 45] ++ sort_field ++ String.mk [Char.ofNat 34]
        else
          String.mk [Char.ofNat 34] ++ sort_field ++ String.mk [Char.ofNat 34]
      args2 ++ " orderBy: [" ++ order_arg ++ "]"
    else args2
  return get_single_model_query query_name args3 fetched_fields

/-- The `fetched_fields` argument of `build_record_query`: absent, a string,
or a list of strings. -/
inductive FetchedFieldsArg where
  | none
  | str (s : String)
  | list (l : List String)

/-- The identifier-renaming step of `build_record_query`: when the builder's
id field is absent but a generic `id` key is present, pop `id` and re-insert
its value under the id field name (at the end of the dict). -/
def remapIdField (id_field : String) (m : PyDict) : PyDict :=
  if ¬ (dictKeys m).contains id_field ∧ (dictKeys m).contains "id" then
    dictInsert (dictPop m "id") id_field ((dictGet m "id").getD PyValue.none)
  else m

/-- The fetch projection of `build_record_query`: a falsy argument defaults to
all mapped values except the one under the `uuid` key plus a ` jsonExt`
element (note the doubled space the source's join produces), a list is joined
with `", "`, and a non-empty string is used as given. -/
def defaultFetchedFields (cfg : DataMapperCfg) : String :=
  String.intercalate " "
    (((cfg.fields_mapping.filter (fun p => !(p.1 == "uuid"))).map Prod.snd) ++ [" jsonExt"])

/-- Dispatch on the `fetched_fields` argument, as the source's
`if not fetched_fields / elif isinstance(fetched_fields, list) / else` chain. -/
def resolveFetchedFields (cfg : DataMapperCfg) : FetchedFieldsArg → String
  | FetchedFieldsArg.none => defaultFetchedFields cfg
  | FetchedFieldsArg.str s =>
      if s.isEmpty then defaultFetchedFields cfg else s
  | FetchedFieldsArg.list l =>
      if l.isEmpty then defaultFetchedFields cfg
      else String.intercalate ", " l

/-- `GQLPayloadBuilder.build_record_query`: map the data, rename `id` to the
builder's id field, resolve the fetch projection, strip `jsonExt`, serialize
the arguments, append `first:<n>` when truthy — and, when a forward cursor is
truthy, replace the whole argument list by `after: <cursor>`. -/
def build_record_query (cfg : DataMapperCfg) (id_field : String) (query_name : String)
    (data : List (String × PyValue)) (after_cursor : Option String)
    (fetched_fields : FetchedFieldsArg) (first : Option Nat) : Except PyExc String := do
  let mapped0 ← map_to_graphql (builderCfg cfg) data
  let mapped1 := remapIdField id_field mapped0
  let fetched := resolveFetchedFields cfg fetched_fields
  let mapped2 := dictPop mapped1 "jsonExt"
  let args0 ← create_arguments_with_values mapped2
  let args1 := if pyTruthyOptNat first then
      args0 ++ " first:" ++ toString (first.getD 0)
    else args0
  let args2 := if pyTruthyOptStr after_cursor then
      "after: " ++ after_cursor.getD ""
    else args1
  return get_single_model_query query_name args2 fetched

/-! ## json.loads, modelling the blob parsing in extract_records -/

/-- Skips JSON whitespace. -/
def jsonSkipWs : List Char → List Char
  | [] => []
  | c :: rest =>
    if c = ' ' ∨ c = '\t' ∨ c = '\n' ∨ c = '\r' then jsonSkipWs rest else c :: rest

/-- Value of a hexadecimal digit. -/
def hexVal (c : Char) : Option Nat :=
  if '0' ≤ c ∧ c ≤ '9' then Option.some (c.toNat - 48)
  else if 'a' ≤ c ∧ c ≤ 'f' then Option.some (c.toNat - 87)
  else if 'A' ≤ c ∧ c ≤ 'F' then Option.some (c.toNat - 55)
  else Option.none

/-- Parses the body of a JSON string literal after its opening quote,
returning the string and the rest of the input. Unicode escapes are decoded
code unit by code unit (surrogate pairing is not recombined; no claim
exercises astral escapes). -/
def jsonParseStringBody : List Char → Option (List Char × List Char)
  | [] => Option.none
  | c :: rest =>
    if c = Char.ofNat 34 then Option.some ([], rest)
    else if c = '\\' then
      match rest with
      | [] => Option.none
      | e :: rest2 =>
        if e = 'u' then
          match rest2 with
          | h1 :: h2 :: h3 :: h4 :: rest6 => do
            let v1 ← hexVal h1
            let v2 ← hexVal h2
            let v3 ← hexVal h3
            let v4 ← hexVal h4
            let (body, r) ← jsonParseStringBody rest6
            Option.some (Char.ofNat (v1 * 4096 + v2 * 256 + v3 * 16 + v4) :: body, r)
          | _ => Option.none
        else do
          let d ←
            if e = Char.ofNat 34 then Option.some (Char.ofNat 34)
            else if e = '\\' then Option.some '\\'
            else if e = '/' then Option.some '/'
            else if e = 'n' then Option.some '\n'
            else if e = 't' then Option.some '\t'
            else if e = 'r' then Option.some '\r'
            else if e = 'b' then Option.some (Char.ofNat 8)
            else if e = 'f' then Option.some (Char.ofNat 12)
            else Option.none
          let (body, r) ← jsonParseStringBody rest2
          Option.some (d :: body, r)
    else do
      let (body, r) ← jsonParseStringBody rest
      Option.some (c :: body, r)

mutual

/-- Recursive-descent JSON value parser with explicit fuel. -/
def jsonParseValue : Nat → List Char → Option (PyValue × List Char)
  | 0, _ => Option.none
  | Nat.succ fuel, cs =>
    match jsonSkipWs cs with
    | [] => Option.none
    | c :: rest =>
      if c = Char.ofNat 34 then
        (jsonParseStringBody rest).map (fun p => (PyValue.str (String.mk p.1), p.2))
      else if c = Char.ofNat 123 then
        match jsonSkipWs rest with
        | c2 :: rest2 =>
          if c2 = Char.ofNat 125 then Option.some (PyValue.dict [], rest2)
          else
            (jsonParseMembers fuel (c2 :: rest2)).map (fun p =>
              (PyValue.dict (p.1.foldl (fun acc q => dictInsert acc q.1 q.2) []), p.2))
        | [] => Option.none
      else if c = '[' then
        match jsonSkipWs rest with
        | c2 :: rest2 =>
          if c2 = ']' then Option.some (PyValue.list [], rest2)
          else (jsonParseElements fuel (c2 :: rest2)).map (fun p => (PyValue.list p.1, p.2))
        | [] => Option.none
      else if c = 't' then
        match rest with
        | 'r' :: 'u' :: 'e' :: r => Option.some (PyValue.bool true, r)
        | _ => Option.none
      else if c = 'f' then
        match rest with
        | 'a' :: 'l' :: 's' :: 'e' :: r => Option.some (PyValue.bool false, r)
        | _ => Option.none
      else if c = 'n' then
        match rest with
        | 'u' :: 'l' :: 'l' :: r => Option.some (PyValue.none, r)
        | _ => Option.none
      else if c = '-' then
        match rest.span Char.isDigit with
        | (ds, r) =>
          if ds.isEmpty then Option.none
          else Option.some (PyValue.int (-(Int.ofNat (digitsToNat (String.mk ds)))), r)
      else if c.isDigit then
        match (c :: rest).span Char.isDigit with
        | (ds, r) => Option.some (PyValue.int (Int.ofNat (digitsToNat (String.mk ds))), r)
      else Option.none

/-- Parses the members of a JSON object after its opening brace. -/
def jsonParseMembers : Nat → List Char → Option (List (String × PyValue) × List Char)
  | 0, _ => Option.none
  | Nat.succ fuel, cs =>
    match jsonSkipWs cs with
    | [] => Option.none
    | c :: rest =>
      if c = Char.ofNat 34 then
        match jsonParseStringBody rest with
        | Option.some (k, r1) =>
          match jsonSkipWs r1 with
          | ':' :: r2 =>
            match jsonParseValue fuel r2 with
            | Option.some (v, r3) =>
              match jsonSkipWs r3 with
              | ',' :: r4 =>
                (jsonParseMembers fuel r4).map (fun p => ((String.mk k, v) :: p.1, p.2))
              | c5 :: r5 =>
                if c5 = Char.ofNat 125 then Option.some ([(String.mk k, v)], r5)
                else Option.none
              | [] => Option.none
            | Option.none => Option.none
          | _ => Option.none
        | Option.none => Option.none
      else Option.none

/-- Parses the elements of a JSON array after its opening bracket. -/
def jsonParseElements : Nat → List Char → Option (List PyValue × List Char)
  | 0, _ => Option.none
  | Nat.succ fuel, cs =>
    match jsonParseValue fuel cs with
    | Option.some (v, r1) =>
      match jsonSkipWs r1 with
      | ',' :: r2 => (jsonParseElements fuel r2).map (fun p => (v :: p.1, p.2))
      | ']' :: r3 => Option.some ([v], r3)
      | _ => Option.none
    | Option.none => Option.none

end

/-- Python `json.loads`: parse one value and require only whitespace after it. -/
def jsonLoads (s : String) : Option PyValue :=
  match jsonParseValue (s.data.length + 2) s.data with
  | Option.some (v, r) => if (jsonSkipWs r).isEmpty then Option.some v else Option.none
  | Option.none => Option.none

/-! ## Response decoder: DataConverterUtils.extract_records -/

/-- Python `v.get(k, default)` on a value that must be a dict; anything else
raises AttributeError, as in the chained `.get` navigation of the source. -/
def pyGetOr (v : PyValue) (k : String) (dflt : PyValue) : Except PyExc PyValue :=
  match v with
  | PyValue.dict d => Except.ok ((dictGet d k).getD dflt)
  | _ => Except.error PyExc.attributeError

/-- The per-record body of `extract_records`: decode a present `id` through
`decode_id`, then, when `jsonExt` is truthy, `json.loads` it, pop the raw
blob key and merge the parsed keys into the record. -/
def extractOne (record : PyDict) : Except PyExc PyDict := do
  let r1 ←
    if (dictKeys record).contains "id" then
      match dictGet record "id" with
      | Option.some (PyValue.str s) =>
        match decode_id s with
        | Except.ok idv => Except.ok (dictInsert record "id" (PyValue.str idv))
        | Except.error e => Except.error e
      | _ => Except.error PyExc.typeError
    else Except.ok record
  let blob := (dictGet r1 "jsonExt").getD PyValue.none
  if pyTruthy blob then
    match blob with
    | PyValue.str s =>
      match jsonLoads s with
      | Option.some (PyValue.dict ext) => Except.ok (dictUpdate (dictPop r1 "jsonExt") ext)
      | Option.some _ => Except.error PyExc.typeError
      | Option.none => Except.error PyExc.valueError
    | _ => Except.error PyExc.typeError
  else Except.ok r1

/-- `DataConverterUtils.extract_records`: navigate
`result.get('data', dict()).get(query_get, dict()).get('edges', list())`,
take each edge's `node`, then decode ids and merge extension blobs. -/
def extract_records (result : PyValue) (query_get : String) :
    Except PyExc (List PyDict) := do
  let d1 ← pyGetOr result "data" (PyValue.dict [])
  let d2 ← pyGetOr d1 query_get (PyValue.dict [])
  let edgesV ← pyGetOr d2 "edges" (PyValue.list [])
  let edges ←
    match edgesV with
    | PyValue.list xs => Except.ok xs
    | _ => Except.error PyExc.typeError
  let nodes ← edges.mapM (fun e => pyGetOr e "node" (PyValue.dict []))
  nodes.mapM (fun r =>
    match r with
    | PyValue.dict d => extractOne d
    | _ => Except.error PyExc.typeError)

/-! ## RegistryGQLManager.mutate_registry_record -/

/-- The status of a `MutationLog` row, as the external correlation-log
collaborator reports it (RECEIVED is the pending state in openIMIS). -/
inductive MutationLogStatus where
  | received
  | error
  | success

/-- A row of the external correlation log: its status and error detail. -/
structure MutationLogRec where
  status : MutationLogStatus
  error : String

/-- The uniform result shape of all manager operations. -/
structure RegistryGQLManagerActionResult where
  success : Int
  data : Option PyValue

/-- The outcome resolution of `RegistryGQLManager.mutate_registry_record`,
starting from the parsed response envelope the execution collaborator
returned (the query build and the network call that precede this are the
injected collaborator's work). `mutation_log_lookup` models
`MutationLog.objects.filter(client_mutation_id=...).first()`: when it finds
nothing, the source dereferences `None.status` and raises AttributeError. -/
def mutate_registry_record (mutation_name : String) (mutation_result : PyValue)
    (mutation_log_lookup : PyValue → Option MutationLogRec) :
    Except PyExc RegistryGQLManagerActionResult := do
  let errors ← pyGetOr mutation_result "errors" PyValue.none
  if pyTruthy errors then
    Except.error (PyExc.mutationError (MutationErrorDetail.fromEnvelope errors))
  else
    let d1 ← pyGetOr mutation_result "data" (PyValue.dict [])
    let d2 ← pyGetOr d1 mutation_name (PyValue.dict [])
    let client_mutation_id ← pyGetOr d2 "clientMutationId" PyValue.none
    if ¬ pyTruthy client_mutation_id then
      Except.error (PyExc.mutationError MutationErrorDetail.missingClientMutationId)
    else
      match mutation_log_lookup client_mutation_id with
      | Option.none => Except.error PyExc.attributeError
      | Option.some mutation_log =>
        match mutation_log.status with
        | MutationLogStatus.error =>
          Except.error (PyExc.mutationError (MutationErrorDetail.fromLog mutation_log.error))
        | _ => Except.ok { success := 1, data := Option.none }

/-! ## Auxiliary notions for stating the claims -/

/-- `needle` occurs contiguously inside `hay`. -/
def containsStr (hay needle : String) : Bool :=
  hay.data.tails.any (fun t => needle.data.isPrefixOf t)

/-- A connection-shaped response envelope wrapping the given node records,
as the execution collaborator returns it for `query_get`. -/
def mkConnectionEnvelope (query_get : String) (nodes : List PyValue) : PyValue :=
  PyValue.dict [("data", PyValue.dict [(query_get,
    PyValue.dict [("edges", PyValue.list (nodes.map (fun n => PyValue.dict [("node", n)])))])])]

/-- A mutation response envelope with a `data.<name>.clientMutationId` payload
and optional top-level errors. -/
def mkMutationEnvelope (mutation_name : String) (errors : Option PyValue)
    (cmid : PyValue) : PyValue :=
  PyValue.dict ((match errors with
    | Option.some e => [("errors", e)]
    | Option.none => []) ++
    [("data", PyValue.dict [(mutation_name, PyValue.dict [("clientMutationId", cmid)])])])

/-! ## Claims -/

/-- C1: for every mutation call, the outcome resolves as: top-level envelope
errors fail with MutationError carrying those errors; a missing (falsy)
clientMutationId fails with MutationError; a found correlation-log row with
status Error fails with MutationError carrying the log's error detail; and in
every remaining case (a found row with any non-Error status) the call returns
ActionResult with success 1 and null data. -/
theorem C1_mutation_outcome_resolution (mn : String)
    (d dd dmn : List (String × PyValue))
    (lookup : PyValue → Option MutationLogRec) (log : MutationLogRec)
    (hdata : (dictGet d "data").getD (PyValue.dict []) = PyValue.dict dd)
    (hmn : (dictGet dd mn).getD (PyValue.dict []) = PyValue.dict dmn) :
    (pyTruthy ((dictGet d "errors").getD PyValue.none) = true →
      mutate_registry_record mn (PyValue.dict d) lookup =
        Except.error (PyExc.mutationError (MutationErrorDetail.fromEnvelope
          ((dictGet d "errors").getD PyValue.none)))) ∧
    (pyTruthy ((dictGet d "errors").getD PyValue.none) = false →
      pyTruthy ((dictGet dmn "clientMutationId").getD PyValue.none) = false →
      mutate_registry_record mn (PyValue.dict d) lookup =
        Except.error (PyExc.mutationError MutationErrorDetail.missingClientMutationId)) ∧
    (pyTruthy ((dictGet d "errors").getD PyValue.none) = false →
      pyTruthy ((dictGet dmn "clientMutationId").getD PyValue.none) = true →
      lookup ((dictGet dmn "clientMutationId").getD PyValue.none) = Option.some log →
      log.status = MutationLogStatus.error →
      mutate_registry_record mn (PyValue.dict d) lookup =
        Except.error (PyExc.mutationError (MutationErrorDetail.fromLog log.error))) ∧
    (pyTruthy ((dictGet d "errors").getD PyValue.none) = false →
      pyTruthy ((dictGet dmn "clientMutationId").getD PyValue.none) = true →
      lookup ((dictGet dmn "clientMutationId").getD PyValue.none) = Option.some log →
      log.status ≠ MutationLogStatus.error →
      mutate_registry_record mn (PyValue.dict d) lookup =
        Except.ok { success := 1, data := Option.none }) := by
  refine ⟨fun herr => ?_, fun herr hcm => ?_,
    fun herr hcm hfound hst => ?_, fun herr hcm hfound hst => ?_⟩
  · unfold mutate_registry_record
    simp [pyGetOr, bind, Except.bind, herr]
  · unfold mutate_registry_record
    simp [pyGetOr, bind, Except.bind, hdata, hmn, herr, hcm]
  · unfold mutate_registry_record
    simp [pyGetOr, bind, Except.bind, hdata, hmn, herr, hcm, hfound, hst]
  · unfold mutate_registry_record
    simp only [pyGetOr, bind, Except.bind, hdata, hmn, herr, hcm, hfound]
    simp only [Bool.false_eq_true, if_false, not_true, if_neg, Bool.true_eq_false]

/-- Witness for C1 at a concrete envelope: no top-level errors, a resolvable
clientMutationId, and a found log row with status Success. -/
theorem C1_mutation_outcome_resolution_witness :
    mutate_registry_record "createMutation"
      (PyValue.dict [("data", PyValue.dict [("createMutation",
        PyValue.dict [("clientMutationId", PyValue.str "u1")])])])
      (fun _ => Option.some { status := MutationLogStatus.success, error := "" }) =
    Except.ok { success := 1, data := Option.none } :=
  (C1_mutation_outcome_resolution "createMutation"
      [("data", PyValue.dict [("createMutation",
        PyValue.dict [("clientMutationId", PyValue.str "u1")])])]
      [("createMutation", PyValue.dict [("clientMutationId", PyValue.str "u1")])]
      [("clientMutationId", PyValue.str "u1")]
      (fun _ => Option.some { status := MutationLogStatus.success, error := "" })
      { status := MutationLogStatus.success, error := "" } rfl rfl).2.2.2
    rfl rfl rfl (by intro h; cases h)

/-- C10: when the envelope yields a truthy clientMutationId but the
correlation-log lookup finds no row at all, `mutate_registry_record` raises
AttributeError by dereferencing `None.status` — it never returns a success
result, and this path is not a classified MutationError. -/
theorem C10_lookup_not_found_raises (mn : String)
    (d dd dmn : List (String × PyValue))
    (lookup : PyValue → Option MutationLogRec)
    (hdata : (dictGet d "data").getD (PyValue.dict []) = PyValue.dict dd)
    (hmn : (dictGet dd mn).getD (PyValue.dict []) = PyValue.dict dmn)
    (herr : pyTruthy ((dictGet d "errors").getD PyValue.none) = false)
    (hcm : pyTruthy ((dictGet dmn "clientMutationId").getD PyValue.none) = true)
    (hnf : lookup ((dictGet dmn "clientMutationId").getD PyValue.none) = Option.none) :
    mutate_registry_record mn (PyValue.dict d) lookup =
      Except.error PyExc.attributeError := by
  unfold mutate_registry_record
  simp [pyGetOr, bind, Except.bind, hdata, hmn, herr, hcm, hnf]

/-- Witness for C10: a concrete well-formed envelope whose correlation id is
found nowhere in the log. -/
theorem C10_lookup_not_found_raises_witness :
    mutate_registry_record "createMutation"
      (PyValue.dict [("data", PyValue.dict [("createMutation",
        PyValue.dict [("clientMutationId", PyValue.str "u1")])])])
      (fun _ => Option.none) =
    Except.error PyExc.attributeError :=
  C10_lookup_not_found_raises "createMutation"
    [("data", PyValue.dict [("createMutation",
      PyValue.dict [("clientMutationId", PyValue.str "u1")])])]
    [("createMutation", PyValue.dict [("clientMutationId", PyValue.str "u1")])]
    [("clientMutationId", PyValue.str "u1")]
    (fun _ => Option.none) rfl rfl rfl rfl rfl

/-- `fmLookup` misses exactly when the field is not among the mapping keys. -/
theorem fmLookup_eq_none_iff (fm : List (String × String)) (f : String) :
    fmLookup fm f = Option.none ↔ f ∉ fm.map Prod.fst := by
  simp only [fmLookup, Option.map_eq_none', List.find?_eq_none, List.mem_map,
    beq_iff_eq]
  constructor
  · rintro h ⟨p, hp, hf⟩
    exact h p hp hf
  · intro h p hp hf
    exact h ⟨p, hp, hf⟩

/-- Classification of an external field name by a mapper configuration. -/
theorem mapFields_total_of_classified (cfg : DataMapperCfg) :
    ∀ (vd : List (String × PyValue)) (mapped jext : PyDict),
      (∀ p ∈ vd, p.1 ∈ cfg.fields_mapping.map Prod.fst ∨ p.1 ∈ cfg.special_fields ∨
        p.1 ∈ cfg.meta_fields) →
      ∃ r, mapFields cfg vd mapped jext = Except.ok r
  | [], mapped, jext, _ => ⟨(mapped, jext), rfl⟩
  | (f, v) :: rest, mapped, jext, h => by
    have hrest := fun p hp => h p (List.mem_cons_of_mem _ hp)
    have hf := h (f, v) (List.mem_cons_self _ _)
    cases hlk : fmLookup cfg.fields_mapping f with
    | some g =>
      obtain ⟨r, hr⟩ := mapFields_total_of_classified cfg rest (dictInsert mapped g v) jext hrest
      exact ⟨r, by simp [mapFields, hlk, hr]⟩
    | none =>
      have hnk : f ∉ cfg.fields_mapping.map Prod.fst := (fmLookup_eq_none_iff _ _).mp hlk
      rcases hf with hk | hs | hm
      · exact absurd hk hnk
      · obtain ⟨r, hr⟩ := mapFields_total_of_classified cfg rest mapped (dictInsert jext f v) hrest
        exact ⟨r, by simp [mapFields, hlk, hs, hr]⟩
      · by_cases hs : f ∈ cfg.special_fields
        · obtain ⟨r2, hr2⟩ := mapFields_total_of_classified cfg rest mapped (dictInsert jext f v) hrest
          exact ⟨r2, by simp [mapFields, hlk, hs, hr2]⟩
        · obtain ⟨r, hr⟩ := mapFields_total_of_classified cfg rest (dictInsert mapped f v) jext hrest
          exact ⟨r, by simp [mapFields, hlk, hs, hm, hr]⟩

/-- A hit in `fmLookup` puts the field among the mapping keys. -/
theorem fmLookup_eq_some_mem (fm : List (String × String)) (f g : String)
    (h : fmLookup fm f = Option.some g) : f ∈ fm.map Prod.fst := by
  simp only [fmLookup, Option.map_eq_some'] at h
  obtain ⟨p, hp, -⟩ := h
  have hmem := List.mem_of_find?_eq_some hp
  have heq : p.1 = f := by
    have := List.find?_some hp
    simpa [beq_iff_eq] using this
  exact heq ▸ List.mem_map_of_mem Prod.fst hmem

/-- A field outside all three classes fails the loop with the listing error. -/
theorem mapFields_err_of_unclassified (cfg : DataMapperCfg) :
    ∀ (vd : List (String × PyValue)) (mapped jext : PyDict),
      (∃ p ∈ vd, p.1 ∉ cfg.fields_mapping.map Prod.fst ∧ p.1 ∉ cfg.special_fields ∧
        p.1 ∉ cfg.meta_fields) →
      ∃ f, f ∉ cfg.fields_mapping.map Prod.fst ∧ f ∉ cfg.special_fields ∧
        f ∉ cfg.meta_fields ∧
        mapFields cfg vd mapped jext = Except.error (PyExc.mutationError
          (MutationErrorDetail.unsupportedField f (cfg.fields_mapping.map Prod.fst)
            cfg.special_fields))
  | [], _, _, h => absurd h (by simp)
  | (f, v) :: rest, mapped, jext, h => by
    by_cases hbad : f ∉ cfg.fields_mapping.map Prod.fst ∧ f ∉ cfg.special_fields ∧
        f ∉ cfg.meta_fields
    · obtain ⟨hnk, hns, hnm⟩ := hbad
      have hlk : fmLookup cfg.fields_mapping f = Option.none := by
        cases hlk : fmLookup cfg.fields_mapping f with
        | none => rfl
        | some g => exact absurd (fmLookup_eq_some_mem _ _ _ hlk) hnk
      exact ⟨f, hnk, hns, hnm, by simp [mapFields, hlk, hns, hnm]⟩
    · have hrest : ∃ p ∈ rest, p.1 ∉ cfg.fields_mapping.map Prod.fst ∧
          p.1 ∉ cfg.special_fields ∧ p.1 ∉ cfg.meta_fields := by
        obtain ⟨p, hp, hpbad⟩ := h
        rcases List.mem_cons.mp hp with hph | hpt
        · rw [hph] at hpbad
          exact absurd hpbad hbad
        · exact ⟨p, hpt, hpbad⟩
      cases hlk : fmLookup cfg.fields_mapping f with
      | some g =>
        obtain ⟨f0, h1, h2, h3, hr⟩ :=
          mapFields_err_of_unclassified cfg rest (dictInsert mapped g v) jext hrest
        exact ⟨f0, h1, h2, h3, by simp [mapFields, hlk, hr]⟩
      | none =>
        by_cases hs : f ∈ cfg.special_fields
        · obtain ⟨f0, h1, h2, h3, hr⟩ :=
            mapFields_err_of_unclassified cfg rest mapped (dictInsert jext f v) hrest
          exact ⟨f0, h1, h2, h3, by simp [mapFields, hlk, hs, hr]⟩
        · have hm : f ∈ cfg.meta_fields := by
            have hnk : f ∉ cfg.fields_mapping.map Prod.fst :=
              (fmLookup_eq_none_iff _ _).mp hlk
            by_contra hnm
            exact hbad ⟨hnk, hs, hnm⟩
          obtain ⟨f0, h1, h2, h3, hr⟩ :=
            mapFields_err_of_unclassified cfg rest (dictInsert mapped f v) jext hrest
          exact ⟨f0, h1, h2, h3, by simp [mapFields, hlk, hs, hm, hr]⟩

/-- C2: a record whose every field classifies as mapped, special or meta is
forward-mapped successfully; a record with any unclassified field fails — as
one deterministic MutationError raised inside the mapper itself, before
anything is built or executed — and the error carries the offending field
together with the allowed mapped-field and special-field name lists. -/
theorem C2_field_classification (cfg : DataMapperCfg) (vd : List (String × PyValue)) :
    ((∀ p ∈ vd, p.1 ∈ cfg.fields_mapping.map Prod.fst ∨ p.1 ∈ cfg.special_fields ∨
        p.1 ∈ cfg.meta_fields) →
      ∃ m, map_to_graphql cfg vd = Except.ok m) ∧
    ((∃ p ∈ vd, p.1 ∉ cfg.fields_mapping.map Prod.fst ∧ p.1 ∉ cfg.special_fields ∧
        p.1 ∉ cfg.meta_fields) →
      ∃ f, f ∉ cfg.fields_mapping.map Prod.fst ∧ f ∉ cfg.special_fields ∧
        f ∉ cfg.meta_fields ∧
        map_to_graphql cfg vd = Except.error (PyExc.mutationError
          (MutationErrorDetail.unsupportedField f (cfg.fields_mapping.map Prod.fst)
            cfg.special_fields))) := by
  constructor
  · intro h
    obtain ⟨⟨mapped, jext⟩, hr⟩ := mapFields_total_of_classified cfg vd [] [] h
    by_cases hj : jext.isEmpty
    · exact ⟨mapped, by simp [map_to_graphql, hr, bind, Except.bind, hj, pure, Except.pure]⟩
    · exact ⟨dictInsert mapped "jsonExt" (PyValue.str (jsonDumps (PyValue.dict jext))),
        by simp [map_to_graphql, hr, bind, Except.bind, hj, pure, Except.pure]⟩
  · intro h
    obtain ⟨f0, h1, h2, h3, hr⟩ := mapFields_err_of_unclassified cfg vd [] [] h
    exact ⟨f0, h1, h2, h3, by simp [map_to_graphql, hr, bind, Except.bind]⟩

/-- Witness for C2: with mapping name-to-firstName, special field note and
default meta fields, a record over name/note/uuid maps successfully, while a
record carrying the unknown field id fails with the listing MutationError. -/
theorem C2_field_classification_witness :
    (∃ m, map_to_graphql
        { fields_mapping := [("name", "firstName")], special_fields := ["note"] }
        [("name", PyValue.str "Jo"), ("note", PyValue.str "hi"),
          ("uuid", PyValue.str "u1")] = Except.ok m) ∧
    (∃ f, f ∉ ["name"] ∧ f ∉ ["note"] ∧ f ∉ ["uuid", "uuids"] ∧
      map_to_graphql
        { fields_mapping := [("name", "firstName")], special_fields := ["note"] }
        [("name", PyValue.str "Jo"), ("id", PyValue.str "5")] =
        Except.error (PyExc.mutationError
          (MutationErrorDetail.unsupportedField f ["name"] ["note"]))) :=
  ⟨(C2_field_classification
      { fields_mapping := [("name", "firstName")], special_fields := ["note"] }
      [("name", PyValue.str "Jo"), ("note", PyValue.str "hi"),
        ("uuid", PyValue.str "u1")]).1 (by decide),
   (C2_field_classification
      { fields_mapping := [("name", "firstName")], special_fields := ["note"] }
      [("name", PyValue.str "Jo"), ("id", PyValue.str "5")]).2
     ⟨("id", PyValue.str "5"), by simp, by decide⟩⟩

/-- C5 counterexample: under the claim's exact configuration — mapping
name-to-firstName, special field note, default meta fields — the input
record with fields name, note and id does not serialize at all: the field
`id` classifies as none of mapped, special or meta, so the mapper raises
MutationError before any arguments are produced. -/
theorem C5_claim_counterexample :
    map_to_graphql
      { fields_mapping := [("name", "firstName")], special_fields := ["note"] }
      [("name", PyValue.str "Jo"), ("note", PyValue.str "hi"), ("id", PyValue.str "5")] =
    Except.error (PyExc.mutationError
      (MutationErrorDetail.unsupportedField "id" ["name"] ["note"])) := rfl

/-- C5 amended: the serialization rules hold of the argument serializer. The
claim's mapper output for the admissible fields name and note is firstName
plus the escaped jsonExt blob; extending that record with the id pair, the
serializer emits `firstName: "Jo"`, the quote-escaped `jsonExt`, and `id: 5`
as an unquoted numeral; a non-digit id stays quoted, a list value becomes an
inline JSON array, and any other scalar is quoted. -/
theorem C5_argument_serialization :
    (map_to_graphql
        { fields_mapping := [("name", "firstName")], special_fields := ["note"] }
        [("name", PyValue.str "Jo"), ("note", PyValue.str "hi")] =
      Except.ok [("firstName", PyValue.str "Jo"),
        ("jsonExt", PyValue.str "\x7b\"note\": \"hi\"\x7d")]) ∧
    (create_arguments_with_values [("firstName", PyValue.str "Jo"),
        ("jsonExt", PyValue.str "\x7b\"note\": \"hi\"\x7d"), ("id", PyValue.str "5")] =
      Except.ok "firstName: \"Jo\", jsonExt: \"\x7b\\\"note\\\": \\\"hi\\\"\x7d\", id: 5") ∧
    (create_arguments_with_values [("id", PyValue.str "A5")] =
      Except.ok "id: \"A5\"") ∧
    (create_arguments_with_values [("tags", PyValue.list [PyValue.str "a", PyValue.str "b"])] =
      Except.ok "tags: [\"a\", \"b\"]") ∧
    (create_arguments_with_values [("age", PyValue.int 30)] =
      Except.ok "age: \"30\"") :=
  ⟨rfl, rfl, rfl, rfl, rfl⟩

/-- C6: the list-query ordering argument comes from the first mapped key
only — descending prefixes a minus, ascending emits the bare name, a second
mapped key is never used, and no orderBy argument appears when the mapped
data is empty (even if special fields were given) or ordering is unset. -/
theorem C6_ordering_argument :
    (∃ q, build_list_query
        { fields_mapping := [("name", "firstName")], special_fields := ["note"] }
        "insurees" [("name", PyValue.str "Jo")]
        (Option.some "descending") Option.none Option.none = Except.ok q ∧
      containsStr q "orderBy: [\"-firstName\"]" = true) ∧
    (∃ q, build_list_query
        { fields_mapping := [("name", "firstName")], special_fields := ["note"] }
        "insurees" [("name", PyValue.str "Jo")]
        (Option.some "ascending") Option.none Option.none = Except.ok q ∧
      containsStr q "orderBy: [\"firstName\"]" = true) ∧
    (∃ q, build_list_query
        { fields_mapping := [("name", "firstName"), ("surname", "lastName")],
          special_fields := ["note"] }
        "insurees" [("name", PyValue.str "Jo"), ("surname", PyValue.str "Do")]
        (Option.some "descending") Option.none Option.none = Except.ok q ∧
      containsStr q "orderBy: [\"-firstName\"]" = true ∧
      containsStr q "-lastName" = false) ∧
    (∃ q, build_list_query
        { fields_mapping := [("name", "firstName")], special_fields := ["note"] }
        "insurees" [] (Option.some "descending") Option.none Option.none = Except.ok q ∧
      containsStr q "orderBy" = false) ∧
    (∃ q, build_list_query
        { fields_mapping := [("name", "firstName")], special_fields := ["note"] }
        "insurees" [("note", PyValue.str "hi")]
        (Option.some "descending") Option.none Option.none = Except.ok q ∧
      containsStr q "orderBy" = false) ∧
    (∃ q, build_list_query
        { fields_mapping := [("name", "firstName")], special_fields := ["note"] }
        "insurees" [("name", PyValue.str "Jo")] Option.none Option.none Option.none =
        Except.ok q ∧
      containsStr q "orderBy" = false) :=
  ⟨⟨_, rfl, rfl⟩, ⟨_, rfl, rfl⟩, ⟨_, rfl, rfl, rfl⟩, ⟨_, rfl, rfl⟩, ⟨_, rfl, rfl⟩,
    ⟨_, rfl, rfl⟩⟩

/-- `containsStr` agrees with list infixhood on the character data. -/
theorem containsStr_iff (hay needle : String) :
    containsStr hay needle = true ↔ needle.data <:+: hay.data := by
  simp only [containsStr, List.any_eq_true, List.mem_tails,
    List.isPrefixOf_iff_prefix, List.infix_iff_prefix_suffix]
  constructor
  · rintro ⟨t, hsuf, hpre⟩
    exact ⟨t, hpre, hsuf⟩
  · rintro ⟨t, hpre, hsuf⟩
    exact ⟨t, hsuf, hpre⟩

/-- Extending a string on the right preserves every occurrence. -/
theorem strInfix_append_right (s t n : String) (h : n.data <:+: s.data) :
    n.data <:+: (s ++ t).data := by
  rw [String.data_append]
  exact List.IsInfix.trans h (List.IsPrefix.isInfix (List.prefix_append _ _))

/-- A two-piece tail `x ++ y` occurs in `base ++ x ++ y`. -/
theorem strInfix_of_tail2 (base x y : String) :
    (x ++ y).data <:+: ((base ++ x) ++ y).data := by
  simp only [String.data_append, List.append_assoc]
  exact List.IsSuffix.isInfix (List.suffix_append _ _)

/-- Any occurrence inside the serialized arguments survives inside the full
connection-query document. -/
theorem containsStr_get_single_model_query (qn args ff needle : String)
    (h : needle.data <:+: args.data) :
    containsStr (get_single_model_query qn args ff) needle = true := by
  rw [containsStr_iff]
  refine List.IsInfix.trans h ?_
  simp only [get_single_model_query, String.data_append, List.append_assoc]
  exact ⟨("\n                query \x7b\n                    ").data ++ qn.data ++ ("(").data,
    (") \x7b\n").data ++ ("                    totalCount\n").data
      ++ ("                    pageInfo \x7b hasNextPage, endCursor \x7d\n").data
      ++ ("                        edges\x7b\n").data
      ++ ("                            cursor\n").data
      ++ ("                            node\x7b\n").data
      ++ ("                                ").data ++ ff.data ++ ("\n").data
      ++ ("                            \x7d\n").data
      ++ ("                        \x7d\n").data
      ++ ("                    \x7d\n").data
      ++ ("                \x7d\n").data
      ++ ("                ").data,
    by simp [List.append_assoc]⟩

/-- C7: the list-query pagination arguments satisfy offset equals page times
page size: a non-zero page size puts ` first:<pageSize>` in the argument
text, and a non-zero page (with a page size present) puts
` offset: <page*pageSize>` there (zero or absent values are falsy in the
source's truthiness tests and suppress the argument). -/
theorem C7_pagination (cfg : DataMapperCfg) (qn : String)
    (data : List (String × PyValue)) (ordering : Option String)
    (page : Option Nat) (ps : Nat) (m0 : PyDict) (base : String)
    (hmap : map_to_graphql (builderCfg cfg) data = Except.ok m0)
    (hser : create_arguments_with_values (dictPop m0 "jsonExt") = Except.ok base) :
    (ps ≠ 0 → ∃ q, build_list_query cfg qn data ordering page (Option.some ps) =
        Except.ok q ∧ containsStr q (" first:" ++ toString ps) = true) ∧
    (∀ p, page = Option.some p → p ≠ 0 →
      ∃ q, build_list_query cfg qn data ordering page (Option.some ps) =
        Except.ok q ∧ containsStr q (" offset: " ++ toString (p * ps)) = true) := by
  constructor
  · intro hps
    have hb : (ps != 0) = true := by simpa using hps
    unfold build_list_query
    simp only [hmap, hser, bind, Except.bind, pyTruthyOptNat, hb, if_true, Option.getD]
    split <;> split <;>
      refine ⟨_, rfl, containsStr_get_single_model_query _ _ _ _ ?_⟩ <;>
      (repeat first
        | exact strInfix_of_tail2 _ _ _
        | apply strInfix_append_right)
  · intro p hpage hp
    have hb2 : (p != 0) = true := by simpa using hp
    unfold build_list_query
    simp only [hmap, hser, bind, Except.bind, hpage, pyTruthyOptNat, hb2, if_true,
      Option.getD]
    split <;> split <;>
      refine ⟨_, rfl, containsStr_get_single_model_query _ _ _ _ ?_⟩ <;>
      (repeat first
        | exact strInfix_of_tail2 _ _ _
        | apply strInfix_append_right)

/-- Witness for C7: page 2 with page size 10 yields argument text containing
` first:10` and ` offset: 20`. -/
theorem C7_pagination_witness :
    (∃ q, build_list_query
        { fields_mapping := [("name", "firstName")], special_fields := ["note"] }
        "insurees" [("name", PyValue.str "Jo")] Option.none
        (Option.some 2) (Option.some 10) = Except.ok q ∧
      containsStr q " first:10" = true) ∧
    (∃ q, build_list_query
        { fields_mapping := [("name", "firstName")], special_fields := ["note"] }
        "insurees" [("name", PyValue.str "Jo")] Option.none
        (Option.some 2) (Option.some 10) = Except.ok q ∧
      containsStr q " offset: 20" = true) :=
  ⟨(C7_pagination
      { fields_mapping := [("name", "firstName")], special_fields := ["note"] }
      "insurees" [("name", PyValue.str "Jo")] Option.none (Option.some 2) 10
      [("firstName", PyValue.str "Jo")] "firstName: \"Jo\"" rfl rfl).1
      (by decide),
   (C7_pagination
      { fields_mapping := [("name", "firstName")], special_fields := ["note"] }
      "insurees" [("name", PyValue.str "Jo")] Option.none (Option.some 2) 10
      [("firstName", PyValue.str "Jo")] "firstName: \"Jo\"" rfl rfl).2 2 rfl
      (by decide)⟩

/-- C9: in the record query builder, a supplied (non-empty) forward cursor
replaces the entire argument list — field filters and the `first` limit
included — by the single argument `after: <cursor>`; with no cursor and a
non-zero `first`, ` first:<n>` is appended to the serialized field
arguments. -/
theorem C9_cursor_replaces_arguments (cfg : DataMapperCfg) (id_field qn : String)
    (data : List (String × PyValue)) (ff : FetchedFieldsArg)
    (m0 : PyDict) (base : String)
    (hmap : map_to_graphql (builderCfg cfg) data = Except.ok m0)
    (hser : create_arguments_with_values (dictPop (remapIdField id_field m0) "jsonExt") =
      Except.ok base) :
    (∀ (cur : String) (first : Option Nat), cur ≠ "" →
      build_record_query cfg id_field qn data (Option.some cur) ff first =
        Except.ok (get_single_model_query qn ("after: " ++ cur)
          (resolveFetchedFields cfg ff))) ∧
    (∀ (after_cursor : Option String) (n : Nat),
      pyTruthyOptStr after_cursor = false → n ≠ 0 →
      build_record_query cfg id_field qn data after_cursor ff (Option.some n) =
        Except.ok (get_single_model_query qn (base ++ " first:" ++ toString n)
          (resolveFetchedFields cfg ff))) := by
  constructor
  · intro cur first hcur
    have hemp : cur.isEmpty = false := by
      cases h : cur.isEmpty
      · rfl
      · exact absurd ((String.isEmpty_iff cur).mp h) hcur
    have hc : pyTruthyOptStr (Option.some cur) = true := by
      simp [pyTruthyOptStr, hemp]
    unfold build_record_query
    simp only [hmap, hser, bind, Except.bind, hc, if_true, Option.getD]
    rfl
  · intro after_cursor n hfalse hn
    have hb : (n != 0) = true := by simpa using hn
    unfold build_record_query
    simp only [hmap, hser, bind, Except.bind, hfalse, pyTruthyOptNat, hb, if_true,
      Option.getD, Bool.false_eq_true, if_false]
    rfl

/-- Witness for C9: with a cursor, the whole argument list collapses to
`after: abc` even though a filter and `first` were supplied; without one,
` first:7` is appended to the filter arguments. -/
theorem C9_cursor_replaces_arguments_witness :
    (build_record_query
        { fields_mapping := [("name", "firstName")], special_fields := ["note"] }
        "chfId" "insurees" [("name", PyValue.str "Jo")] (Option.some "abc")
        FetchedFieldsArg.none (Option.some 5) =
      Except.ok (get_single_model_query "insurees" "after: abc"
        (resolveFetchedFields
          { fields_mapping := [("name", "firstName")], special_fields := ["note"] }
          FetchedFieldsArg.none))) ∧
    (build_record_query
        { fields_mapping := [("name", "firstName")], special_fields := ["note"] }
        "chfId" "insurees" [("name", PyValue.str "Jo")] Option.none
        FetchedFieldsArg.none (Option.some 7) =
      Except.ok (get_single_model_query "insurees" "firstName: \"Jo\" first:7"
        (resolveFetchedFields
          { fields_mapping := [("name", "firstName")], special_fields := ["note"] }
          FetchedFieldsArg.none))) :=
  ⟨(C9_cursor_replaces_arguments
      { fields_mapping := [("name", "firstName")], special_fields := ["note"] }
      "chfId" "insurees" [("name", PyValue.str "Jo")] FetchedFieldsArg.none
      [("firstName", PyValue.str "Jo")] "firstName: \"Jo\"" rfl rfl).1
      "abc" (Option.some 5) (by decide),
   (C9_cursor_replaces_arguments
      { fields_mapping := [("name", "firstName")], special_fields := ["note"] }
      "chfId" "insurees" [("name", PyValue.str "Jo")] FetchedFieldsArg.none
      [("firstName", PyValue.str "Jo")] "firstName: \"Jo\"" rfl rfl).2
      Option.none 7 rfl (by decide)⟩

/-- Inserting under a fresh, different key cannot introduce key `a`. -/
theorem not_mem_keys_dictInsert {α : Type} (d : List (String × α)) (k : String) (v : α)
    (a : String) (hne : a ≠ k) (h : a ∉ dictKeys d) :
    a ∉ dictKeys (dictInsert d k v) := by
  unfold dictInsert dictKeys at *
  split
  · intro hmem
    simp only [List.map_map, List.mem_map, Function.comp] at hmem
    obtain ⟨p, hp, heq⟩ := hmem
    by_cases hk : (p.1 == k) = true
    · rw [hk] at heq
      simp at heq
      exact hne heq.symm
    · rw [Bool.not_eq_true] at hk
      rw [hk] at heq
      simp at heq
      exact h (heq ▸ List.mem_map_of_mem Prod.fst hp)
  · intro hmem
    simp only [List.map_append, List.mem_append, List.map_cons, List.map_nil,
      List.mem_singleton] at hmem
    rcases hmem with hm | hm
    · exact h hm
    · exact hne hm

/-- Merging a dict without key `a` into a dict without key `a` yields a dict
without key `a`. -/
theorem not_mem_keys_dictUpdate {α : Type} (e d : List (String × α)) (a : String)
    (hd : a ∉ dictKeys d) (he : a ∉ dictKeys e) :
    a ∉ dictKeys (dictUpdate d e) := by
  induction e generalizing d with
  | nil => exact hd
  | cons p rest ih =>
    simp only [dictKeys, List.map_cons, List.mem_cons] at he
    push_neg at he
    exact ih (dictInsert d p.1 p.2)
      (not_mem_keys_dictInsert d p.1 p.2 a he.1 hd)
      (by simpa [dictKeys] using he.2)

/-- Popping a key removes it from the key set. -/
theorem not_mem_keys_dictPop {α : Type} (d : List (String × α)) (k : String) :
    k ∉ dictKeys (dictPop d k) := by
  unfold dictKeys dictPop
  intro hmem
  simp only [List.mem_map] at hmem
  obtain ⟨p, hp, heq⟩ := hmem
  have := List.of_mem_filter hp
  simp [heq] at this

/-- Unwrapping the `node` of every edge of a built envelope. -/
theorem mapM_node_extraction (nodes : List PyDict) :
    List.mapM (fun e => pyGetOr e "node" (PyValue.dict []))
      ((nodes.map PyValue.dict).map (fun n => PyValue.dict [("node", n)])) =
      Except.ok (nodes.map PyValue.dict) := by
  induction nodes with
  | nil => rfl
  | cons h t ih =>
    simp only [List.map_cons, List.mapM_cons, ih]
    rfl

/-- Processing the unwrapped dict nodes is `extractOne` on each record. -/
theorem mapM_dict_match (nodes : List PyDict) :
    List.mapM (fun r => match r with
      | PyValue.dict d => extractOne d
      | _ => Except.error PyExc.typeError) (nodes.map PyValue.dict) =
      nodes.mapM extractOne := by
  induction nodes with
  | nil => rfl
  | cons h t ih => simp only [List.map_cons, List.mapM_cons, ih]

/-- On a connection-shaped envelope, `extract_records` is exactly
`extractOne` applied to each node record in order. -/
theorem extract_records_envelope (qn : String) (nodes : List PyDict) :
    extract_records (mkConnectionEnvelope qn (nodes.map PyValue.dict)) qn =
      nodes.mapM extractOne := by
  have hget : dictGet [(qn, PyValue.dict [("edges", PyValue.list
      ((nodes.map PyValue.dict).map (fun n => PyValue.dict [("node", n)])))])] qn =
      Option.some (PyValue.dict [("edges", PyValue.list
        ((nodes.map PyValue.dict).map (fun n => PyValue.dict [("node", n)])))]) := by
    simp [dictGet]
  have s2 : pyGetOr (PyValue.dict [(qn, PyValue.dict [("edges", PyValue.list
      ((nodes.map PyValue.dict).map (fun n => PyValue.dict [("node", n)])))])]) qn
      (PyValue.dict []) = Except.ok (PyValue.dict [("edges", PyValue.list
        ((nodes.map PyValue.dict).map (fun n => PyValue.dict [("node", n)])))]) := by
    show Except.ok ((dictGet [(qn, PyValue.dict [("edges", PyValue.list
      ((nodes.map PyValue.dict).map (fun n => PyValue.dict [("node", n)])))])] qn).getD
      (PyValue.dict [])) = _
    rw [hget]
    rfl
  have s1 : ∀ X : PyValue, pyGetOr (PyValue.dict [("data", X)]) "data" (PyValue.dict []) =
      Except.ok X := fun X => rfl
  have s3 : ∀ E : List PyValue, pyGetOr (PyValue.dict [("edges", PyValue.list E)]) "edges"
      (PyValue.list []) = Except.ok (PyValue.list E) := fun E => rfl
  simp only [extract_records, mkConnectionEnvelope, bind, Except.bind, s1, s2, s3,
    mapM_node_extraction, mapM_dict_match]

/-- C8 counterexample: when the non-blank blob itself contains a key named
`jsonExt`, the merge re-introduces that key, so the raw blob key is not
absent from the final record as the claim states. -/
theorem C8_claim_counterexample :
    extract_records (mkConnectionEnvelope "q"
        [PyValue.dict [("jsonExt", PyValue.str "\x7b\"jsonExt\": \"x\"\x7d")]]) "q" =
      Except.ok [[("jsonExt", PyValue.str "x")]] ∧
    "jsonExt" ∈ dictKeys [("jsonExt", PyValue.str "x")] :=
  ⟨rfl, by decide⟩

/-- C8 amended: each extracted record is the node's dict; a record whose
extension blob is absent or blank is returned unchanged without error; a
record with a non-blank blob that parses to a JSON object has the raw blob
key popped and the parsed keys merged in — and the blob key is absent from
the final record provided the parsed object does not itself carry a key
named `jsonExt`. -/
theorem C8_extension_blob_handling :
    (∀ (qn : String) (nodes : List PyDict),
      extract_records (mkConnectionEnvelope qn (nodes.map PyValue.dict)) qn =
        nodes.mapM extractOne) ∧
    (∀ r : PyDict, "id" ∉ dictKeys r →
      (pyTruthy ((dictGet r "jsonExt").getD PyValue.none) = false →
        extractOne r = Except.ok r) ∧
      (∀ s ext, dictGet r "jsonExt" = Option.some (PyValue.str s) → s ≠ "" →
        jsonLoads s = Option.some (PyValue.dict ext) →
        extractOne r = Except.ok (dictUpdate (dictPop r "jsonExt") ext) ∧
        ("jsonExt" ∉ dictKeys ext →
          "jsonExt" ∉ dictKeys (dictUpdate (dictPop r "jsonExt") ext)))) := by
  refine ⟨extract_records_envelope, fun r hid => ?_⟩
  have hc : (dictKeys r).contains "id" = false := by
    cases h : (dictKeys r).contains "id"
    · rfl
    · exact absurd (List.mem_of_elem_eq_true h) hid
  constructor
  · intro hblob
    simp only [extractOne, hc, Bool.false_eq_true, if_false, bind, Except.bind, hblob]
  · intro s ext hjs hs hload
    have hemp : s.isEmpty = false := by
      cases h : s.isEmpty
      · rfl
      · exact absurd ((String.isEmpty_iff s).mp h) hs
    have htr : pyTruthy (PyValue.str s) = true := by
      simp [pyTruthy, hemp]
    refine ⟨?_, fun hext => not_mem_keys_dictUpdate ext (dictPop r "jsonExt") "jsonExt"
      (not_mem_keys_dictPop r "jsonExt") hext⟩
    simp only [extractOne, hc, Bool.false_eq_true, if_false, bind, Except.bind, htr,
      if_true, hjs, Option.getD_some, hload]

/-- Witness for C8: a concrete record whose blob parses to a note field; the
merge drops the raw blob key and keeps the parsed key. -/
theorem C8_extension_blob_handling_witness :
    extractOne [("firstName", PyValue.str "Jo"),
        ("jsonExt", PyValue.str "\x7b\"note\": \"hi\"\x7d")] =
      Except.ok [("firstName", PyValue.str "Jo"), ("note", PyValue.str "hi")] :=
  ((C8_extension_blob_handling.2
      [("firstName", PyValue.str "Jo"), ("jsonExt", PyValue.str "\x7b\"note\": \"hi\"\x7d")]
      (by decide)).2 "\x7b\"note\": \"hi\"\x7d" [("note", PyValue.str "hi")]
      rfl (by decide) rfl).1

/-- Every Unicode code point is below 0x110000. -/
theorem char_toNat_lt (c : Char) : c.toNat < 1114112 := by
  rcases c.valid with h | h
  · exact Nat.lt_trans h (by decide)
  · exact h.2

theorem utf8_decode_encode (c : Char) (rest : List Nat) :
    utf8DecodeAux (utf8EncodeChar c ++ rest) =
      (utf8DecodeAux rest).map (fun cs => c :: cs) := by
  have hlt : c.toNat < 1114112 := char_toNat_lt c
  unfold utf8EncodeChar
  by_cases h1 : c.toNat < 128
  · rw [if_pos h1]
    show utf8DecodeAux (c.toNat :: rest) = _
    delta utf8DecodeAux
    dsimp only
    rw [if_pos h1, Char.ofNat_toNat]
  · by_cases h2 : c.toNat < 2048
    · rw [if_neg h1, if_pos h2]
      show utf8DecodeAux ((192 + c.toNat / 64) :: (128 + c.toNat % 64) :: rest) = _
      delta utf8DecodeAux
      dsimp only
      rw [if_neg (by omega : ¬ (192 + c.toNat / 64 < 128)),
        if_neg (by omega : ¬ (192 + c.toNat / 64 < 192)),
        if_pos (by omega : 192 + c.toNat / 64 < 224),
        if_pos (by omega : 128 ≤ 128 + c.toNat % 64 ∧ 128 + c.toNat % 64 < 192)]
      have harith : (192 + c.toNat / 64 - 192) * 64 + (128 + c.toNat % 64 - 128) =
          c.toNat := by omega
      rw [harith, Char.ofNat_toNat]
    · by_cases h3 : c.toNat < 65536
      · rw [if_neg h1, if_neg h2, if_pos h3]
        show utf8DecodeAux ((224 + c.toNat / 4096) :: (128 + c.toNat / 64 % 64)
          :: (128 + c.toNat % 64) :: rest) = _
        delta utf8DecodeAux
        dsimp only
        rw [if_neg (by omega : ¬ (224 + c.toNat / 4096 < 128)),
          if_neg (by omega : ¬ (224 + c.toNat / 4096 < 192)),
          if_neg (by omega : ¬ (224 + c.toNat / 4096 < 224)),
          if_pos (by omega : 224 + c.toNat / 4096 < 240),
          if_pos (by omega :
            (128 ≤ 128 + c.toNat / 64 % 64 ∧ 128 + c.toNat / 64 % 64 < 192)
              ∧ (128 ≤ 128 + c.toNat % 64 ∧ 128 + c.toNat % 64 < 192))]
        have harith : (224 + c.toNat / 4096 - 224) * 4096
            + (128 + c.toNat / 64 % 64 - 128) * 64 + (128 + c.toNat % 64 - 128) =
            c.toNat := by omega
        rw [harith, Char.ofNat_toNat]
      · rw [if_neg h1, if_neg h2, if_neg h3]
        show utf8DecodeAux ((240 + c.toNat / 262144) :: (128 + c.toNat / 4096 % 64)
          :: (128 + c.toNat / 64 % 64) :: (128 + c.toNat % 64) :: rest) = _
        delta utf8DecodeAux
        dsimp only
        rw [if_neg (by omega : ¬ (240 + c.toNat / 262144 < 128)),
          if_neg (by omega : ¬ (240 + c.toNat / 262144 < 192)),
          if_neg (by omega : ¬ (240 + c.toNat / 262144 < 224)),
          if_neg (by omega : ¬ (240 + c.toNat / 262144 < 240)),
          if_pos (by omega : 240 + c.toNat / 262144 < 248),
          if_pos (by omega :
            (128 ≤ 128 + c.toNat / 4096 % 64 ∧ 128 + c.toNat / 4096 % 64 < 192)
              ∧ (128 ≤ 128 + c.toNat / 64 % 64 ∧ 128 + c.toNat / 64 % 64 < 192)
              ∧ (128 ≤ 128 + c.toNat % 64 ∧ 128 + c.toNat % 64 < 192))]
        have harith : (240 + c.toNat / 262144 - 240) * 262144
            + (128 + c.toNat / 4096 % 64 - 128) * 4096
            + (128 + c.toNat / 64 % 64 - 128) * 64 + (128 + c.toNat % 64 - 128) =
            c.toNat := by omega
        rw [harith, Char.ofNat_toNat]

theorem utf8_roundtrip_data : ∀ (cs : List Char) (tail : List Nat),
    utf8DecodeAux (cs.flatMap utf8EncodeChar ++ tail) =
      (utf8DecodeAux tail).map (fun ds => cs ++ ds)
  | [], tail => by simp
  | c :: cs, tail => by
    simp only [List.flatMap_cons, List.append_assoc, utf8_decode_encode,
      utf8_roundtrip_data cs tail, Option.map_map]
    rfl

theorem utf8EncodeChar_lt (c : Char) : ∀ b ∈ utf8EncodeChar c, b < 256 := by
  intro b hb
  have hlt := char_toNat_lt c
  unfold utf8EncodeChar at hb
  dsimp only at hb
  split_ifs at hb with h1 h2 h3 <;>
    simp only [List.mem_cons, List.not_mem_nil, or_false] at hb
  · subst hb
    omega
  · rcases hb with rfl | rfl <;> omega
  · rcases hb with rfl | rfl | rfl <;> omega
  · rcases hb with rfl | rfl | rfl | rfl <;> omega

theorem b64val_alphabet : ∀ n, n < 64 → b64val (b64alphabet n) = Option.some n := by
  decide

theorem b64alphabet_ne_pad : ∀ n, n < 64 → b64alphabet n ≠ '=' := by
  decide

theorem b64symbol_alphabet (n : Nat) (h : n < 64) :
    b64symbol (b64alphabet n) = Option.some n := by
  unfold b64symbol
  rw [if_neg (b64alphabet_ne_pad n h)]
  exact b64val_alphabet n h

theorem b64_roundtrip_chars : ∀ bs : List Nat, (∀ b ∈ bs, b < 256) →
    ((b64encodeChars bs).mapM b64symbol).bind b64decodeAux = Option.some bs
  | [], _ => rfl
  | [a], h => by
    have ha : a < 256 := h a (by simp)
    show (([b64alphabet (a / 4), b64alphabet (a % 4 * 16), '=', '=']).mapM b64symbol).bind
      b64decodeAux = _
    rw [List.mapM_cons, b64symbol_alphabet (a / 4) (by omega)]
    rw [List.mapM_cons, b64symbol_alphabet (a % 4 * 16) (by omega)]
    simp only [List.mapM_cons, List.mapM_nil, b64symbol, if_pos rfl, if_true,
      Option.bind_some, Option.some_bind, Option.bind_eq_bind, pure]
    rw [b64decodeAux]
    rw [if_pos (⟨rfl, rfl, rfl⟩ : (9999 : Nat) = 9999 ∧ (9999 : Nat) = 9999 ∧
      ([] : List Nat) = [])]
    have harith : a / 4 * 4 + a % 4 * 16 / 16 = a := by omega
    rw [harith]
  | [a, b], h => by
    have ha : a < 256 := h a (by simp)
    have hb : b < 256 := h b (by simp)
    show (([b64alphabet (a / 4), b64alphabet (a % 4 * 16 + b / 16),
      b64alphabet (b % 16 * 4), '=']).mapM b64symbol).bind b64decodeAux = _
    rw [List.mapM_cons, b64symbol_alphabet (a / 4) (by omega)]
    rw [List.mapM_cons, b64symbol_alphabet (a % 4 * 16 + b / 16) (by omega)]
    rw [List.mapM_cons, b64symbol_alphabet (b % 16 * 4) (by omega)]
    simp only [List.mapM_cons, List.mapM_nil, b64symbol, if_pos rfl, if_true,
      Option.bind_some, Option.some_bind, Option.bind_eq_bind, pure]
    rw [b64decodeAux]
    rw [if_neg (fun hcon => absurd hcon.1 (by omega))]
    rw [if_pos (⟨rfl, rfl⟩ : (9999 : Nat) = 9999 ∧ ([] : List Nat) = [])]
    have h1 : a / 4 * 4 + (a % 4 * 16 + b / 16) / 16 = a := by omega
    have h2 : (a % 4 * 16 + b / 16) % 16 * 16 + b % 16 * 4 / 4 = b := by omega
    rw [h1, h2]
  | a :: b :: c :: rest, h => by
    have ha : a < 256 := h a (by simp)
    have hb : b < 256 := h b (by simp)
    have hc : c < 256 := h c (by simp)
    have IH := b64_roundtrip_chars rest (fun x hx => h x (by simp [hx]))
    obtain ⟨syms, hsy, hdec⟩ := Option.bind_eq_some.mp IH
    show ((b64alphabet (a / 4) :: b64alphabet (a % 4 * 16 + b / 16)
      :: b64alphabet (b % 16 * 4 + c / 64) :: b64alphabet (c % 64)
      :: b64encodeChars rest).mapM b64symbol).bind b64decodeAux = _
    rw [List.mapM_cons, b64symbol_alphabet (a / 4) (by omega)]
    rw [List.mapM_cons, b64symbol_alphabet (a % 4 * 16 + b / 16) (by omega)]
    rw [List.mapM_cons, b64symbol_alphabet (b % 16 * 4 + c / 64) (by omega)]
    rw [List.mapM_cons, b64symbol_alphabet (c % 64) (by omega)]
    rw [hsy]
    simp only [Option.some_bind, Option.pure_def, Option.bind_some, bind, Option.bind]
    rw [b64decodeAux.eq_def]
    dsimp only
    rw [if_neg (fun hcon => absurd hcon.1 (by omega))]
    rw [if_neg (fun hcon => absurd hcon.1 (by omega))]
    rw [hdec]
    have h1 : a / 4 * 4 + (a % 4 * 16 + b / 16) / 16 = a := by omega
    have h2 : (a % 4 * 16 + b / 16) % 16 * 16 + (b % 16 * 4 + c / 64) / 4 = b := by omega
    have h3 : (b % 16 * 4 + c / 64) % 4 * 64 + c % 64 = c := by omega
    rw [h1, h2, h3]
    rfl

theorem splitOnColon_no_colon : ∀ cs : List Char, ':' ∉ cs → splitOnColon cs = [cs]
  | [], _ => rfl
  | c :: rest, h => by
    have hc : ¬ (c = ':') := fun he => h (he ▸ List.mem_cons_self c rest)
    have ih := splitOnColon_no_colon rest (fun hm => h (List.mem_cons_of_mem c hm))
    unfold splitOnColon
    rw [if_neg hc, ih]

theorem splitOnColon_single (t r : List Char) (ht : ':' ∉ t) (hr : ':' ∉ r) :
    splitOnColon (t ++ ':' :: r) = [t, r] := by
  induction t with
  | nil =>
    show splitOnColon (':' :: r) = [[], r]
    unfold splitOnColon
    rw [if_pos rfl, splitOnColon_no_colon r hr]
  | cons c t ih =>
    have hc : ¬ (c = ':') := fun he => ht (he ▸ List.mem_cons_self c t)
    have ih2 := ih (fun hm => ht (List.mem_cons_of_mem c hm))
    show splitOnColon (c :: (t ++ ':' :: r)) = [c :: t, r]
    unfold splitOnColon
    rw [if_neg hc, ih2]

theorem pyStrEncode_lt (s : String) : ∀ b ∈ pyStrEncode s, b < 256 := by
  intro b hb
  unfold pyStrEncode at hb
  rw [List.mem_flatMap] at hb
  obtain ⟨c, hc, hbc⟩ := hb
  exact utf8EncodeChar_lt c b hbc

theorem utf8_decode_pyStrEncode (s : String) :
    utf8DecodeAux (pyStrEncode s) = Option.some s.data := by
  have h := utf8_roundtrip_data s.data []
  simpa [pyStrEncode, show utf8DecodeAux ([] : List Nat) = Option.some [] from rfl]
    using h

theorem decode_id_of_encode (tag raw : String)
    (htag : ':' ∉ tag.data) (hraw : ':' ∉ raw.data) :
    decode_id (String.mk (b64encodeChars (pyStrEncode (tag ++ ":" ++ raw)))) =
      Except.ok raw := by
  have hround : b64decodeString (String.mk (b64encodeChars
      (pyStrEncode (tag ++ ":" ++ raw)))) =
      Option.some (pyStrEncode (tag ++ ":" ++ raw)) := by
    show ((b64encodeChars (pyStrEncode (tag ++ ":" ++ raw))).mapM b64symbol).bind
      b64decodeAux = _
    exact b64_roundtrip_chars _ (pyStrEncode_lt _)
  unfold decode_id
  rw [hround]
  dsimp only
  rw [utf8_decode_pyStrEncode]
  dsimp only
  have hdata : (tag ++ ":" ++ raw).data = tag.data ++ ':' :: raw.data := by
    simp [String.data_append]
  rw [hdata, splitOnColon_single tag.data raw.data htag hraw]

/-- C3 counterexample: encoding the well-formed identifier `Family:7` and
decoding the result yields `7`, not `Family:7` — decode_id strips the type
tag, so decoding is not the inverse of encode_id's base64 encoding. -/
theorem C3_claim_counterexample :
    encode_id [("id", PyValue.str "Family:7")] =
      [("id", PyValue.str "RmFtaWx5Ojc=")] ∧
    decode_id "RmFtaWx5Ojc=" = Except.ok "7" ∧
    ¬ decode_id "RmFtaWx5Ojc=" = Except.ok "Family:7" := by
  refine ⟨rfl, rfl, ?_⟩
  intro h
  rw [show decode_id "RmFtaWx5Ojc=" = Except.ok "7" from rfl] at h
  exact absurd (Except.ok.inj h) (by decide)

/-- C3 amended: for every well-formed identifier `typeTag:rawId` (one colon,
neither part containing one), decoding the base64 encoding deterministically
yields the `rawId` component — the composition is the projection to the part
after the colon, not the identity; and encode_id replaces the dict's id value
by exactly that base64 envelope. -/
theorem C3_decode_encode_projection (tag raw : String)
    (htag : ':' ∉ tag.data) (hraw : ':' ∉ raw.data) :
    decode_id (String.mk (b64encodeChars (pyStrEncode (tag ++ ":" ++ raw)))) =
      Except.ok raw ∧
    encode_id [("id", PyValue.str (tag ++ ":" ++ raw))] =
      [("id", PyValue.str (String.mk (b64encodeChars
        (pyStrEncode (tag ++ ":" ++ raw)))))] :=
  ⟨decode_id_of_encode tag raw htag hraw, rfl⟩

/-- Witness for C3 at the identifier `Family:7`: decoding its encoding gives
back the raw id `7`. -/
theorem C3_decode_encode_projection_witness :
    decode_id (String.mk (b64encodeChars (pyStrEncode ("Family" ++ ":" ++ "7")))) =
      Except.ok "7" :=
  (C3_decode_encode_projection "Family" "7" (by decide) (by decide)).1

/-- A fresh key is inserted by appending at the end of the dict. -/
theorem dictInsert_append {α : Type} (d : List (String × α)) (k : String) (v : α)
    (h : k ∉ dictKeys d) : dictInsert d k v = d ++ [(k, v)] := by
  unfold dictInsert
  rw [if_neg]
  intro hany
  rw [List.any_eq_true] at hany
  obtain ⟨p, hp, hpk⟩ := hany
  rw [beq_iff_eq] at hpk
  exact h (hpk ▸ List.mem_map_of_mem Prod.fst hp)

theorem fmLookup_mem (fm : List (String × String)) (f g : String)
    (h : fmLookup fm f = Option.some g) : (f, g) ∈ fm := by
  simp only [fmLookup, Option.map_eq_some'] at h
  obtain ⟨p, hp, hg⟩ := h
  have hf : p.1 = f := by
    have := List.find?_some hp
    simpa [beq_iff_eq] using this
  have hmem := List.mem_of_find?_eq_some hp
  have : p = (f, g) := by
    cases p
    simp_all
  exact this ▸ hmem

theorem fmLookup_inj (fm : List (String × String))
    (hvm : (fm.map Prod.snd).Nodup) (f f' g : String)
    (h1 : fmLookup fm f = Option.some g) (h2 : fmLookup fm f' = Option.some g) :
    f = f' := by
  have m1 := fmLookup_mem fm f g h1
  have m2 := fmLookup_mem fm f' g h2
  have := List.inj_on_of_nodup_map hvm m1 m2 rfl
  exact congrArg Prod.fst this

theorem foldl_dictInsert_fresh {α : Type} :
    ∀ (l acc : List (String × α)),
      (∀ p ∈ l, p.1 ∉ dictKeys acc) → (l.map Prod.fst).Nodup →
      l.foldl (fun a p => dictInsert a p.1 p.2) acc = acc ++ l
  | [], acc, _, _ => by simp
  | p :: rest, acc, hfresh, hnd => by
    have hp := hfresh p (List.mem_cons_self p rest)
    rw [List.foldl_cons, dictInsert_append acc p.1 p.2 hp]
    rw [List.map_cons, List.nodup_cons] at hnd
    have hrest : ∀ q ∈ rest, q.1 ∉ dictKeys (acc ++ [(p.1, p.2)]) := by
      intro q hq
      simp only [dictKeys, List.map_append, List.mem_append, List.map_cons,
        List.map_nil, List.mem_singleton]
      rintro (hm | hm)
      · exact hfresh q (List.mem_cons_of_mem p hq) hm
      · exact hnd.1 (hm ▸ List.mem_map_of_mem Prod.fst hq)
    rw [foldl_dictInsert_fresh rest (acc ++ [(p.1, p.2)]) hrest hnd.2]
    simp

theorem mapFields_all_mapped (cfg : DataMapperCfg) :
    ∀ (r : List (String × PyValue)) (acc : PyDict),
      (∀ p ∈ r, ∃ g, fmLookup cfg.fields_mapping p.1 = Option.some g ∧
        g ∉ dictKeys acc) →
      (r.map (fun p => (fmLookup cfg.fields_mapping p.1).getD "")).Nodup →
      mapFields cfg r acc [] = Except.ok
        (acc ++ r.map (fun p => ((fmLookup cfg.fields_mapping p.1).getD "", p.2)), [])
  | [], acc, _, _ => by simp [mapFields]
  | p :: rest, acc, hall, hnd => by
    obtain ⟨g, hg, hfresh⟩ := hall p (List.mem_cons_self p rest)
    rw [List.map_cons, hg, List.nodup_cons] at hnd
    have hstep : mapFields cfg (p :: rest) acc [] =
        mapFields cfg rest (dictInsert acc g p.2) [] := by
      cases p
      simp only [mapFields] at hg ⊢
      rw [hg]
    rw [hstep, dictInsert_append acc g p.2 hfresh]
    have hall2 : ∀ q ∈ rest, ∃ g2, fmLookup cfg.fields_mapping q.1 = Option.some g2 ∧
        g2 ∉ dictKeys (acc ++ [(g, p.2)]) := by
      intro q hq
      obtain ⟨g2, hg2, hf2⟩ := hall q (List.mem_cons_of_mem p hq)
      refine ⟨g2, hg2, ?_⟩
      simp only [dictKeys, List.map_append, List.mem_append, List.map_cons,
        List.map_nil, List.mem_singleton]
      rintro (hm | hm)
      · exact hf2 hm
      · apply hnd.1
        show g ∈ _
        have hqt : (fmLookup cfg.fields_mapping q.1).getD "" = g2 := by rw [hg2]; rfl
        rw [← hm, ← hqt]
        exact List.mem_map_of_mem _ hq
    rw [mapFields_all_mapped cfg rest (acc ++ [(g, p.2)]) hall2 hnd.2]
    have hgd : (fmLookup cfg.fields_mapping p.1).getD "" = g := by rw [hg]; rfl
    simp [hgd]

theorem reversedFieldsMapping_eq (fm : List (String × String))
    (hvm : (fm.map Prod.snd).Nodup) :
    reversedFieldsMapping fm = fm.map (fun p => (p.2, p.1)) := by
  unfold reversedFieldsMapping
  have h1 : fm.foldl (fun acc p => dictInsert acc p.2 p.1) [] =
      (fm.map (fun p => (p.2, p.1))).foldl (fun a p => dictInsert a p.1 p.2) [] := by
    rw [List.foldl_map]
  rw [h1, foldl_dictInsert_fresh _ [] (by simp [dictKeys]) (by simpa [List.map_map, Function.comp] using hvm)]
  simp

theorem revLookup_of_mem (fm : List (String × String))
    (hvm : (fm.map Prod.snd).Nodup) :
    ∀ (f g : String), (f, g) ∈ fm →
      dictGet (fm.map (fun p => (p.2, p.1))) g = Option.some f := by
  intro f g hmem
  induction fm with
  | nil => cases hmem
  | cons q rest ih =>
    rw [List.map_cons, List.nodup_cons] at hvm
    rcases List.mem_cons.mp hmem with hq | ht
    · subst hq
      simp [dictGet, List.find?]
    · have hne : ¬ (q.2 == g) = true := by
        rw [beq_iff_eq]
        intro he
        exact hvm.1 (he ▸ List.mem_map_of_mem Prod.snd ht)
      have ihr := ih hvm.2 ht
      simp only [dictGet, List.map_cons, List.find?] at ihr ⊢
      rw [show ((q.2, q.1).1 == g) = false from by simpa using hne]
      exact ihr

theorem regRecord_fold (cfg : DataMapperCfg) :
    ∀ (m : List (String × PyValue)) (acc : PyDict),
      (∀ p ∈ m, p.1 ∉ cfg.meta_fields ∧ p.1 ∉ cfg.special_fields ∧
        ∃ f, dictGet (reversedFieldsMapping cfg.fields_mapping) p.1 = Option.some f) →
      (m.map (fun p =>
        (dictGet (reversedFieldsMapping cfg.fields_mapping) p.1).getD "")).Nodup →
      (∀ p ∈ m, (dictGet (reversedFieldsMapping cfg.fields_mapping) p.1).getD "" ∉
        dictKeys acc) →
      List.foldl (fun mapped_entry p =>
        if p.1 ∈ cfg.meta_fields then mapped_entry
        else
          let m1 := match dictGet (reversedFieldsMapping cfg.fields_mapping) p.1 with
            | Option.some orig => dictInsert mapped_entry orig p.2
            | Option.none => mapped_entry
          if p.1 ∈ cfg.special_fields then dictInsert m1 p.1 p.2 else m1) acc m =
      acc ++ m.map (fun p =>
        ((dictGet (reversedFieldsMapping cfg.fields_mapping) p.1).getD "", p.2))
  | [], acc, _, _, _ => by simp
  | p :: rest, acc, hprops, hnd, hfresh => by
    obtain ⟨hmeta, hspec, f, hf⟩ := hprops p (List.mem_cons_self p rest)
    have hfr := hfresh p (List.mem_cons_self p rest)
    rw [hf] at hfr
    rw [List.foldl_cons]
    rw [List.map_cons, hf, List.nodup_cons] at hnd
    have hstep : (if p.1 ∈ cfg.meta_fields then acc
        else
          let m1 := match dictGet (reversedFieldsMapping cfg.fields_mapping) p.1 with
            | Option.some orig => dictInsert acc orig p.2
            | Option.none => acc
          if p.1 ∈ cfg.special_fields then dictInsert m1 p.1 p.2 else m1) =
        acc ++ [(f, p.2)] := by
      rw [if_neg hmeta]
      dsimp only
      rw [hf]
      dsimp only
      rw [if_neg hspec, dictInsert_append acc f p.2 hfr]
    rw [hstep]
    have hprops2 : ∀ q ∈ rest, q.1 ∉ cfg.meta_fields ∧ q.1 ∉ cfg.special_fields ∧
        ∃ f2, dictGet (reversedFieldsMapping cfg.fields_mapping) q.1 =
          Option.some f2 := fun q hq => hprops q (List.mem_cons_of_mem p hq)
    have hfresh2 : ∀ q ∈ rest,
        (dictGet (reversedFieldsMapping cfg.fields_mapping) q.1).getD "" ∉
          dictKeys (acc ++ [(f, p.2)]) := by
      intro q hq
      simp only [dictKeys, List.map_append, List.mem_append, List.map_cons,
        List.map_nil, List.mem_singleton]
      rintro (hm | hm)
      · exact hfresh q (List.mem_cons_of_mem p hq) hm
      · apply hnd.1
        rw [Option.getD_some, ← hm]
        exact List.mem_map_of_mem _ hq
    rw [regRecord_fold cfg rest (acc ++ [(f, p.2)]) hprops2 hnd.2 hfresh2]
    have hgd : (dictGet (reversedFieldsMapping cfg.fields_mapping) p.1).getD "" = f := by
      rw [hf]
      rfl
    simp [hgd]

/-- C4 amended: restricted to records built from mapped field names only
(with the spec's bijectivity of the mapped-field table and its exclusive
field classification as hypotheses), reverse mapping is a left inverse of
forward mapping: map_to_registry recovers the original record from
map_to_graphql's output. Meta fields do not satisfy this — the reverse
mapper drops them (see the counterexample). -/
theorem C4_reverse_left_inverse (cfg : DataMapperCfg) (r : List (String × PyValue))
    (hvm : (cfg.fields_mapping.map Prod.snd).Nodup)
    (hvs : ∀ g ∈ cfg.fields_mapping.map Prod.snd, g ∉ cfg.special_fields)
    (hvmeta : ∀ g ∈ cfg.fields_mapping.map Prod.snd, g ∉ cfg.meta_fields)
    (hrk : (r.map Prod.fst).Nodup)
    (hrmem : ∀ p ∈ r, p.1 ∈ cfg.fields_mapping.map Prod.fst) :
    ∃ m, map_to_graphql cfg r = Except.ok m ∧ map_to_registry cfg [m] = [r] := by
  have hlk : ∀ p ∈ r, ∃ g, fmLookup cfg.fields_mapping p.1 = Option.some g := by
    intro p hp
    cases h : fmLookup cfg.fields_mapping p.1 with
    | some g => exact ⟨g, rfl⟩
    | none => exact absurd (hrmem p hp) ((fmLookup_eq_none_iff _ _).mp h)
  have hall : ∀ p ∈ r, ∃ g, fmLookup cfg.fields_mapping p.1 = Option.some g ∧
      g ∉ dictKeys ([] : PyDict) := by
    intro p hp
    obtain ⟨g, hg⟩ := hlk p hp
    exact ⟨g, hg, by simp [dictKeys]⟩
  have hndtr : (r.map (fun p => (fmLookup cfg.fields_mapping p.1).getD "")).Nodup := by
    have hmm : r.map (fun p => (fmLookup cfg.fields_mapping p.1).getD "") =
        (r.map Prod.fst).map (fun f => (fmLookup cfg.fields_mapping f).getD "") := by
      rw [List.map_map]
      rfl
    rw [hmm]
    refine List.Nodup.map_on ?_ hrk
    intro f hf f' hf' heq
    obtain ⟨p, hp, rfl⟩ := List.mem_map.mp hf
    obtain ⟨q, hq, rfl⟩ := List.mem_map.mp hf'
    obtain ⟨g, hg⟩ := hlk p hp
    obtain ⟨g', hg'⟩ := hlk q hq
    rw [hg, hg'] at heq
    simp only [Option.getD_some] at heq
    subst heq
    exact fmLookup_inj cfg.fields_mapping hvm p.1 q.1 g hg hg'
  have hfwd := mapFields_all_mapped cfg r [] hall hndtr
  refine ⟨r.map (fun p => ((fmLookup cfg.fields_mapping p.1).getD "", p.2)), ?_, ?_⟩
  · simp [map_to_graphql, hfwd, bind, Except.bind, pure, Except.pure]
  · have hprops : ∀ p ∈ r.map (fun p => ((fmLookup cfg.fields_mapping p.1).getD "", p.2)),
        p.1 ∉ cfg.meta_fields ∧ p.1 ∉ cfg.special_fields ∧
        ∃ f, dictGet (reversedFieldsMapping cfg.fields_mapping) p.1 = Option.some f := by
      intro p hp
      obtain ⟨q, hq, hpe⟩ := List.mem_map.mp hp
      obtain ⟨g, hg⟩ := hlk q hq
      have hp1 : p.1 = g := by
        rw [← hpe, hg]
        rfl
      have hgv : g ∈ cfg.fields_mapping.map Prod.snd :=
        List.mem_map_of_mem Prod.snd (fmLookup_mem _ _ _ hg)
      refine ⟨hp1 ▸ hvmeta g hgv, hp1 ▸ hvs g hgv, q.1, ?_⟩
      rw [hp1, reversedFieldsMapping_eq cfg.fields_mapping hvm]
      exact revLookup_of_mem cfg.fields_mapping hvm q.1 g (fmLookup_mem _ _ _ hg)
    have hback : (r.map (fun p => ((fmLookup cfg.fields_mapping p.1).getD "", p.2))).map
        (fun p => (dictGet (reversedFieldsMapping cfg.fields_mapping) p.1).getD "") =
        r.map Prod.fst := by
      rw [List.map_map]
      refine List.map_congr_left ?_
      intro q hq
      obtain ⟨g, hg⟩ := hlk q hq
      have hgd : (fmLookup cfg.fields_mapping q.1).getD "" = g := by
        rw [hg]
        rfl
      simp only [Function.comp_def, hgd]
      rw [reversedFieldsMapping_eq cfg.fields_mapping hvm,
        revLookup_of_mem cfg.fields_mapping hvm q.1 g (fmLookup_mem _ _ _ hg)]
      rfl
    have hfold := regRecord_fold cfg
      (r.map (fun p => ((fmLookup cfg.fields_mapping p.1).getD "", p.2))) []
      hprops (by rw [hback]; exact hrk) (by intro p hp; simp [dictKeys])
    unfold map_to_registry mapToRegistryRecord
    simp only [List.map_cons, List.map_nil]
    rw [hfold]
    have hfull : (r.map (fun p => ((fmLookup cfg.fields_mapping p.1).getD "", p.2))).map
        (fun p => ((dictGet (reversedFieldsMapping cfg.fields_mapping) p.1).getD "", p.2)) =
        r := by
      rw [List.map_map]
      have hid : ∀ q ∈ r, ((fun p => ((dictGet (reversedFieldsMapping
          cfg.fields_mapping) p.1).getD "", p.2)) ∘
          (fun p => ((fmLookup cfg.fields_mapping p.1).getD "", p.2))) q = q := by
        intro q hq
        obtain ⟨g, hg⟩ := hlk q hq
        have hgd : (fmLookup cfg.fields_mapping q.1).getD "" = g := by
          rw [hg]
          rfl
        simp only [Function.comp_def, hgd]
        rw [reversedFieldsMapping_eq cfg.fields_mapping hvm,
          revLookup_of_mem cfg.fields_mapping hvm q.1 g (fmLookup_mem _ _ _ hg)]
        rfl
      rw [List.map_congr_left hid, List.map_id']
    rw [List.nil_append, hfull]

/-- C4 counterexample: a record holding only the meta field `uuid` forward
maps to itself, but reverse mapping skips meta fields and returns the empty
record, so the original record is not recovered. -/
theorem C4_claim_counterexample :
    map_to_graphql
      { fields_mapping := [("name", "firstName")], special_fields := ["note"] }
      [("uuid", PyValue.str "u1")] = Except.ok [("uuid", PyValue.str "u1")] ∧
    map_to_registry
      { fields_mapping := [("name", "firstName")], special_fields := ["note"] }
      [[("uuid", PyValue.str "u1")]] = [[]] ∧
    ([] : PyDict) ≠ [("uuid", PyValue.str "u1")] :=
  ⟨rfl, rfl, by simp⟩

/-- Witness for C4: a two-field mapped record round-trips through forward and
reverse mapping unchanged. -/
theorem C4_reverse_left_inverse_witness :
    ∃ m, map_to_graphql
        { fields_mapping := [("name", "firstName"), ("surname", "lastName")],
          special_fields := ["note"] }
        [("name", PyValue.str "Jo"), ("surname", PyValue.str "Do")] = Except.ok m ∧
      map_to_registry
        { fields_mapping := [("name", "firstName"), ("surname", "lastName")],
          special_fields := ["note"] }
        [m] = [[("name", PyValue.str "Jo"), ("surname", PyValue.str "Do")]] :=
  C4_reverse_left_inverse
    { fields_mapping := [("name", "firstName"), ("surname", "lastName")],
      special_fields := ["note"] }
    [("name", PyValue.str "Jo"), ("surname", PyValue.str "Do")]
    (by decide) (by decide) (by decide) (by decide) (by decide)
